import Mathlib

/-!
Verification development for the `flutter` metric/trace load-generation
simulator.  The Go sources are embedded shallowly:

* `time.Duration` (an `int64` count of nanoseconds) becomes `Int`;
* `float64` values that flow through the pure arithmetic paths become `ℚ`
  (every IEEE double is a rational; the algorithms under study are exact
  linear/affine arithmetic, so ℚ is the faithful idealisation);
* the Poisson sampler, which compares against `math.Exp`, is embedded over
  `ℝ` in its own section;
* the per-run pseudo-random generator `*rand.Rand` becomes a stream of
  rational draws plus a cursor: each call to any `rand` method consumes one
  draw.  The determinism claims only depend on which draw goes where, never
  on the numeric law of the PCG, so the stream is a parameter;
* fallible Go functions return `Except`.
-/

namespace Flutter

/-- `time.Duration`: a count of nanoseconds. -/
abbrev Duration := Int

/-- `time.Second`. -/
def second : Int := 1000000000

/-- Model of `*rand.Rand`: a stream of draws and the number of draws
consumed so far.  `Float64`, `NormFloat64`, `Int64N`, … each take the next
element of the stream. -/
structure RNG where
  stream : Nat → ℚ
  pos : Nat

/-- Consume one draw. -/
def RNG.next (r : RNG) : ℚ × RNG :=
  (r.stream r.pos, { r with pos := r.pos + 1 })

/-- `state.RunState` (pkg/state): the per-run mutable context. `Wallclock`
is kept as an integer count of nanoseconds since an arbitrary epoch. -/
structure RunState where
  Tick : Int
  Wallclock : Int
  RunDuration : Int
  RND : RNG
  CurrentAction : Nat

/-! ## Ramp generator (src/unnamed/part_000, package generator) -/

/-- `generator.MetricRampSpec`. -/
structure MetricRampSpec where
  Start : ℚ
  Target : ℚ
  Duration : Int
  PrestartZero : Bool
  PostEndZero : Bool
deriving DecidableEq

/-- `generator.intrerpolate` (sic): linear interpolation from `start` to
`target` over `duration`, beginning at offset `startAt`, evaluated at
offset `now`, honouring the pre-start / post-end zero flags. -/
def intrerpolate (start target : ℚ) (startAt now duration : Int)
    (preZero postZero : Bool) : ℚ :=
  if duration ≤ 0 then
    if preZero then 0 else target
  else if now - startAt ≤ 0 then
    if preZero then 0 else start
  else if duration ≤ now - startAt then
    if postZero then 0 else target
  else
    start + (target - start) * (((now - startAt : Int) : ℚ) / ((duration : Int) : ℚ))

/-- `generator.MetricRamp`: the ramp's state is its (decoded) spec plus the
anchor offset.  The Go field `at` is renamed `atTime` (`at` is reserved in
Lean). -/
structure MetricRamp where
  spec : MetricRampSpec
  atTime : Int
deriving DecidableEq

/-- `MetricRamp.Reconfigure`.  In Go the new spec is produced by decoding
the action's map over a copy of the old spec; the embedding takes that
decoded result (`newSpec`) directly.  If `t ≤` the current anchor the spec
is replaced wholesale; otherwise the old rule's interpolated value at `t`
becomes the new `Start`. -/
def MetricRamp.Reconfigure (m : MetricRamp) (t : Int)
    (newSpec : MetricRampSpec) : Except String MetricRamp :=
  if newSpec.Duration ≤ 0 then
    .error "invalid duration"
  else if t ≤ m.atTime then
    .ok ⟨newSpec, t⟩
  else
    let current := intrerpolate m.spec.Start m.spec.Target m.atTime t
      m.spec.Duration m.spec.PrestartZero m.spec.PostEndZero
    .ok ⟨{ newSpec with Start := current }, t⟩

/-- The scalar a ramp contributes at offset `now` (the `v` of
`MetricRamp.Emit`). -/
def MetricRamp.EmitVal (m : MetricRamp) (now : Int) : ℚ :=
  intrerpolate m.spec.Start m.spec.Target m.atTime now m.spec.Duration
    m.spec.PrestartZero m.spec.PostEndZero

/-- `MetricRamp.Emit`: additive onto the incoming value. -/
def MetricRamp.Emit (m : MetricRamp) (rs : RunState) (value : ℚ) : ℚ :=
  m.EmitVal rs.Tick + value

/-! ## Metric producer gating (pkg/metricproducer/metric.go) -/

/-- `metricproducer.Attributes`: resource/scope/datapoint attribute maps,
carried opaquely as association lists. -/
structure Attributes where
  Resource : List (String × String) := []
  Scope : List (String × String) := []
  Datapoint : List (String × String) := []
deriving DecidableEq

/-- `metricproducer.MetricProducerSpec`: configuration plus the mutable
`lastEmitted` runtime field. -/
structure MetricProducerSpec where
  To : Int
  Attrs : Attributes
  Generators : List String
  Frequency : Int
  SpecType : String
  Name : String
  Disabled : Bool
  lastEmitted : Int
deriving DecidableEq

/-- `MetricProducerSpec.IsDisabled`. -/
def MetricProducerSpec.IsDisabled (m : MetricProducerSpec) : Bool :=
  m.Disabled

/-- `MetricProducerSpec.emitDueToFrequency`:
`state.Tick >= m.lastEmitted + m.Frequency`. -/
def MetricProducerSpec.emitDueToFrequency (m : MetricProducerSpec)
    (tick : Int) : Bool :=
  m.lastEmitted + m.Frequency ≤ tick

/-- `MetricProducerSpec.emitDueToTo`: `m.To == 0 || state.Tick <= m.To`. -/
def MetricProducerSpec.emitDueToTo (m : MetricProducerSpec)
    (tick : Int) : Bool :=
  m.To == 0 || tick ≤ m.To

/-- `MetricProducerSpec.ShouldEmit`. -/
def MetricProducerSpec.ShouldEmit (m : MetricProducerSpec)
    (tick : Int) : Bool :=
  !m.IsDisabled && m.emitDueToFrequency tick && m.emitDueToTo tick

/-- `MetricProducerSpec.Enable`. -/
def MetricProducerSpec.Enable (m : MetricProducerSpec) : MetricProducerSpec :=
  { m with Disabled := false }

/-- `MetricProducerSpec.Disable`. -/
def MetricProducerSpec.Disable (m : MetricProducerSpec) : MetricProducerSpec :=
  { m with Disabled := true }

/-- `metricproducer.DefaultFrequency` = 10s. -/
def DefaultFrequency : Int := 10 * second

/-- The gating prefix of `MetricGauge.Emit` (metric_gauge.go lines 86–89):
no-op unless `ShouldEmit`, otherwise record the tick in `lastEmitted` and
write a datapoint.  The returned flag says whether a datapoint was
written. -/
def gaugeEmitGate (m : MetricProducerSpec) (tick : Int) :
    MetricProducerSpec × Bool :=
  if m.ShouldEmit tick then ({ m with lastEmitted := tick }, true)
  else (m, false)

/-- The ticks at which a producer actually writes datapoints, when `Emit`
is invoked once per element of `ticks` (the run loop invokes every
producer each tick, in tick order). -/
def gaugeEmissions (m : MetricProducerSpec) : List Int → List Int
  | [] => []
  | t :: ts =>
    let (m', emitted) := gaugeEmitGate m t
    if emitted then t :: gaugeEmissions m' ts else gaugeEmissions m' ts

/-! ## Trace producer (pkg/traceproducer/traceproducer.go) -/

/-- `traceproducer.intrerpolate`: same linear interpolation, without the
pre/post zero flags. -/
def traceInterpolate (start target : ℚ) (startAt now duration : Int) : ℚ :=
  if duration ≤ 0 then target
  else if now - startAt ≤ 0 then start
  else if duration ≤ now - startAt then target
  else
    start + (target - start) * (((now - startAt : Int) : ℚ) / ((duration : Int) : ℚ))

/-- `traceproducer.exemplar`: the mutable trace-producer state.  The Go
field `At` is renamed `AtTime`; the exemplar span tree itself is opaque to
every claim and is omitted. -/
structure Exemplar where
  AtTime : Int
  To : Int
  Disabled : Bool
  Rate : ℚ
  start : ℚ
deriving DecidableEq

/-- The rate `exemplar.Emit` computes at a tick (traceproducer.go line
117): interpolate from the stored `start` toward `Rate` over `[At, To]`. -/
def Exemplar.rateAt (t : Exemplar) (tick : Int) : ℚ :=
  traceInterpolate t.start t.Rate t.AtTime tick (t.To - t.AtTime)

/-- `exemplar.SetRate`: capture the currently interpolated rate as the new
`start`, then install the new window and target rate. -/
def Exemplar.SetRate (t : Exemplar) (atArg toArg now : Int) (rate : ℚ) :
    Exemplar :=
  let current := traceInterpolate t.start t.Rate t.AtTime now (t.To - t.AtTime)
  { t with start := current, AtTime := atArg, To := toArg, Rate := rate }

/-- `exemplar.SetStart`. -/
def Exemplar.SetStart (t : Exemplar) (s : ℚ) : Exemplar :=
  { t with start := s }

/-! ## Poisson noise generator (src/unnamed/part_001)

`samplePoisson` compares a running product against `math.Exp(-λ)`, so this
section works over `ℝ`.  Knuth's loop terminates with probability 1 but
not for every draw stream, hence an explicit fuel parameter; on any stream
for which the Go loop terminates, a large-enough fuel yields the same
count, and every theorem below quantifies over the fuel. -/

/-- Real-valued draw stream (the `float64` draws of `rand.Float64` /
`rand.NormFloat64` in this generator). -/
structure RNGr where
  stream : Nat → ℝ
  pos : Nat

/-- Consume one draw. -/
noncomputable def RNGr.next (r : RNGr) : ℝ × RNGr :=
  (r.stream r.pos, { r with pos := r.pos + 1 })

/-- `generator.MetricPoissonNoiseSpec`. -/
structure MetricPoissonNoiseSpec where
  Target : ℝ
  Variation : ℝ
  Direction : String

/-- `generator.MetricPoissonNoise`. -/
structure MetricPoissonNoise where
  spec : MetricPoissonNoiseSpec

/-- The `for p > L { k++; p *= r.Float64() }` loop of `samplePoisson`,
returning `k - 1` (as the code does) and the advanced RNG.  When the fuel
runs out the current `k - 1` is returned. -/
noncomputable def knuthLoop (L : ℝ) : RNGr → Nat → Nat → ℝ → Int × RNGr
  | r, 0, k, _ => ((k : Int) - 1, r)
  | r, fuel + 1, k, p =>
    if L < p then
      let (d, r') := r.next
      knuthLoop L r' fuel (k + 1) (p * d)
    else
      ((k : Int) - 1, r)

/-- `generator.samplePoisson`: Knuth's multiplicative algorithm for
`λ < 30`, normal approximation `round(N(λ, √λ))` otherwise, `0` for
`λ ≤ 0`.  (`math.Round` ties away from zero, `round` ties up; both yield
integers, which is all the claims depend on.) -/
noncomputable def samplePoisson (lam : ℝ) (r : RNGr) (fuel : Nat) :
    ℝ × RNGr :=
  if lam ≤ 0 then (0, r)
  else if lam < 30 then
    let L := Real.exp (-lam)
    let (k, r') := knuthLoop L r fuel 0 1
    ((k : ℝ), r')
  else
    let (d, r') := r.next
    (((round (d * Real.sqrt lam + lam) : ℤ) : ℝ), r')

/-- `MetricPoissonNoise.Emit`: draw, clamp to
`[max(λ−variation,0), λ+variation]`, then enforce directionality.  The Go
method ignores the incoming value. -/
noncomputable def MetricPoissonNoise.Emit (m : MetricPoissonNoise)
    (r : RNGr) (fuel : Nat) : ℝ × RNGr :=
  let lam := m.spec.Target
  let (sample0, r') := samplePoisson lam r fuel
  let low := max (lam - m.spec.Variation) 0
  let high := lam + m.spec.Variation
  let clamped := if sample0 < low then low
    else if high < sample0 then high
    else sample0
  let directed :=
    if m.spec.Direction = "positive" then
      if clamped < 0 then 0 else clamped
    else if m.spec.Direction = "negative" then
      if 0 < clamped then -clamped else clamped
    else clamped
  (directed, r')

/-! ## Normal-noise generator (pkg/generator/metric_noise_normal.go)

Embedded over ℚ: the only random primitive it uses is `NormFloat64`,
modelled as one stream draw.  The directional rejection loop gets a fuel
parameter (it does not terminate on every stream). -/

/-- `generator.MetricNormalNoiseSpec`. -/
structure MetricNormalNoiseSpec where
  Target : ℚ
  StdDev : ℚ
  Variation : ℚ
  Direction : String
deriving DecidableEq

/-- `generator.MetricNormalNoise`: decoded spec plus the derived standard
deviation. -/
structure MetricNormalNoise where
  spec : MetricNormalNoiseSpec
  stdDev : ℚ
deriving DecidableEq

/-- `generator.calcStdDev`: a negative desired value falls back to
`variation / 3`. -/
def calcStdDev (desired variation : ℚ) : ℚ :=
  if desired < 0 then variation / 3 else desired

/-- `generator.validNormalDirs`. -/
def validNormalDirs : List String := ["positive", "negative", "both"]

/-- The `for { noise = NormFloat64()*stdDev; ... }` rejection loop of
`getNormalNoise`, accepting a draw whose sign matches the direction. -/
def normalRejectLoop (dir : String) (stdDev : ℚ) : RNG → Nat → ℚ × RNG
  | r, 0 => (0, r)
  | r, fuel + 1 =>
    let (d, r') := r.next
    let noise := d * stdDev
    if dir = "positive" && decide (0 ≤ noise) then (noise, r')
    else if dir = "negative" && decide (noise ≤ 0) then (noise, r')
    else normalRejectLoop dir stdDev r' fuel

/-- `generator.getNormalNoise`. -/
def getNormalNoise (spec : MetricNormalNoiseSpec) (stdDev : ℚ) (r : RNG)
    (fuel : Nat) : ℚ × RNG :=
  if spec.Direction = "both" then
    let (d, r') := r.next
    (d * stdDev, r')
  else if stdDev ≤ 0 then (0, r)
  else normalRejectLoop spec.Direction stdDev r fuel

/-- `generator.getNormalSample`: add `Target`, clamp to
`[Target − Variation, Target + Variation]`. -/
def getNormalSample (spec : MetricNormalNoiseSpec) (stdDev : ℚ) (r : RNG)
    (fuel : Nat) : ℚ × RNG :=
  let (noise, r') := getNormalNoise spec stdDev r fuel
  let sample := spec.Target + noise
  let sample :=
    if sample < spec.Target - spec.Variation then spec.Target - spec.Variation
    else if spec.Target + spec.Variation < sample then spec.Target + spec.Variation
    else sample
  (sample, r')

/-- `MetricNormalNoise.Emit`: `incoming + sample`. -/
def MetricNormalNoise.Emit (m : MetricNormalNoise) (r : RNG) (fuel : Nat)
    (incoming : ℚ) : ℚ × RNG :=
  let (sample, r') := getNormalSample m.spec m.stdDev r fuel
  (incoming + sample, r')

/-! ## Generator registry values (pkg/generator/metric.go)

The run-level claims only ever exercise ramp and normal-noise generators,
so the polymorphic `MetricGenerator` interface is embedded as a sum of
those two; the factory rejects every other decoded spec, mirroring the
construction-time errors of the remaining branches. -/

/-- A decoded `metricGenerator` action spec.  `unknown` stands for a spec
map whose `type` tag is missing, not a string, or not one of the embedded
generator kinds. -/
inductive GenSpec
  | ramp (s : MetricRampSpec)
  | normalNoise (s : MetricNormalNoiseSpec)
  | unknown (typeName : String)
deriving DecidableEq

/-- A generator registry value. -/
inductive MGen
  | ramp (m : MetricRamp)
  | normal (m : MetricNormalNoise)
deriving DecidableEq

/-- `generator.CreateMetricGenerator` (the factory switch) fused with the
validating constructors `NewMetricRamp` / `NewMetricNormalNoise`. -/
def CreateMetricGenerator (atArg : Int) (spec : GenSpec) :
    Except String MGen :=
  match spec with
  | .ramp s =>
    if s.Duration ≤ 0 then .error "invalid duration"
    else .ok (.ramp ⟨s, atArg⟩)
  | .normalNoise s =>
    if s.Variation < 0 then .error "invalid variation"
    else if !(validNormalDirs.contains s.Direction) then
      .error ("invalid direction: " ++ s.Direction)
    else .ok (.normal ⟨s, calcStdDev s.StdDev s.Variation⟩)
  | .unknown t => .error ("unknown metricGenerator type: " ++ t)

/-- `MetricGenerator.Reconfigure` dispatch.  Decoding an action spec of a
different shape into a generator's spec struct fails (`ErrorUnused`
decoding), hence the mismatch arm errors. -/
def MGen.Reconfigure (g : MGen) (atArg : Int) (spec : GenSpec) :
    Except String MGen :=
  match g, spec with
  | .ramp m, .ramp s => (m.Reconfigure atArg s).map .ramp
  | .normal _, .normalNoise s =>
    if s.Variation < 0 then .error ("invalid variation")
    else if !(validNormalDirs.contains s.Direction) then
      .error ("invalid direction: " ++ s.Direction)
    else .ok (.normal ⟨s, calcStdDev s.StdDev s.Variation⟩)
  | _, _ => .error "spec decode mismatch"

/-- `MetricGenerator.Emit` dispatch: returns the emitted value, the
updated generator and the advanced RNG. -/
def MGen.Emit (g : MGen) (tick : Int) (r : RNG) (fuel : Nat)
    (incoming : ℚ) : ℚ × MGen × RNG :=
  match g with
  | .ramp m => (m.EmitVal tick + incoming, .ramp m, r)
  | .normal m =>
    let (v, r') := m.Emit r fuel incoming
    (v, .normal m, r')

/-! ## Registries: Go maps as association lists

A Go `map[string]V` becomes an association list; assignment replaces in
place or appends.  Iteration order of Go maps is *randomized per loop*, so
everywhere the code ranges over a map the embedding takes the order as an
explicit input (see `applyOrder`). -/

/-- Map lookup. -/
def alookup {α : Type} (l : List (String × α)) (k : String) : Option α :=
  (l.find? (fun p => p.1 = k)).map (·.2)

/-- Map assignment `l[k] = v`: replace the key's binding in place, or
append a new one. -/
def aset {α : Type} : List (String × α) → String → α → List (String × α)
  | [], k, v => [(k, v)]
  | (a, b) :: l, k, v =>
    if a = k then (k, v) :: l else (a, b) :: aset l k v

/-- The key set of a map. -/
def akeys {α : Type} (l : List (String × α)) : List String :=
  l.map (·.1)

/-- A candidate iteration order for a map's keys: used if it is a
permutation of the keys, otherwise the keys themselves.  Models Go's
`for name := range m`: some order that visits each key exactly once. -/
def applyOrder (cand : List String) (keys : List String) : List String :=
  if cand.isPerm keys then cand else keys

/-! ## Script actions (pkg/scriptaction) -/

/-- A decoded `metric` action spec (the `map[string]any` the gauge/sum
constructors decode).  `none` fields model absent keys: `mapstructure`
leaves the pre-set default in place. -/
structure GaugeActionSpec where
  SpecType : String
  To : Option Int
  Frequency : Option Int
  Generators : Option (List String)
  Name : Option String
  Disabled : Option Bool
deriving DecidableEq

/-- A decoded action `spec` bag, by shape. -/
inductive ActionSpec
  | gen (g : GenSpec)
  | metric (m : GaugeActionSpec)
  | traceRate (rate : Option ℚ) (start : Option ℚ)
  | empty
deriving DecidableEq

/-- `scriptaction.ScriptAction`.  The Go field `Type` is renamed
`ActionType`. -/
structure ScriptAction where
  ID : String
  At : Int
  To : Int
  ActionType : String
  Spec : ActionSpec
deriving DecidableEq

/-- Byte-wise (here: character-wise; every identifier in play is ASCII)
string ordering, as `strings.Compare`. -/
def strLtChars : List Char → List Char → Bool
  | [], [] => false
  | [], _ :: _ => true
  | _ :: _, [] => false
  | c :: cs, d :: ds =>
    if c.toNat < d.toNat then true
    else if d.toNat < c.toNat then false
    else strLtChars cs ds

/-- `strings.Compare a b < 0`. -/
def strLt (a b : String) : Bool :=
  strLtChars a.data b.data

/-- The sort order of `Script.Prepare`'s `slices.SortFunc` comparator:
by `At`, then `Type`, then `ID`. -/
def actionLE (a b : ScriptAction) : Bool :=
  if a.At ≠ b.At then a.At < b.At
  else if a.ActionType ≠ b.ActionType then strLt a.ActionType b.ActionType
  else strLt a.ID b.ID || a.ID = b.ID

/-- Sort the action list by `actionLE`. -/
def sortActions (l : List ScriptAction) : List ScriptAction :=
  List.insertionSort (fun a b => actionLE a b = true) l

/-! ## Metric producers (pkg/metricproducer) -/

/-- `metricproducer.CreateMetricExporter` fused with `NewMetricGauge` /
`NewMetricSum` (which differ only in the OpenTelemetry point type they
declare).  `name` is the action ID, `actTo` the action's `To` (the
constructor's pre-decode default for the spec's `to`). -/
def CreateMetricExporter (generators : List (String × MGen)) (name : String)
    (actTo : Int) (s : GaugeActionSpec) :
    Except String MetricProducerSpec :=
  if s.SpecType ≠ "gauge" ∧ s.SpecType ≠ "sum" then
    .error ("unknown metric exporter type: " ++ s.SpecType)
  else if name = "" then
    .error ("invalid metric name: " ++ name)
  else
    let m : MetricProducerSpec :=
      { To := s.To.getD actTo
        Attrs := {}
        Generators := s.Generators.getD []
        Frequency := s.Frequency.getD DefaultFrequency
        SpecType := s.SpecType
        Name := s.Name.getD name
        Disabled := s.Disabled.getD false
        lastEmitted := 0 }
    if m.Generators = [] then
      .error ("no generators: " ++ name)
    else
      match m.Generators.find? (fun g => (alookup generators g).isNone) with
      | some g => .error ("unknown generator: " ++ g)
      | none => .ok m

/-- `MetricGauge.Reconfigure`: decode the spec over the existing producer
(present keys override, `lastEmitted` is untouched), then validate the
generator references. -/
def MetricProducerSpec.Reconfigure (m : MetricProducerSpec)
    (generators : List (String × MGen)) (s : GaugeActionSpec) :
    Except String MetricProducerSpec :=
  let m' : MetricProducerSpec :=
    { m with
      To := s.To.getD m.To
      Frequency := s.Frequency.getD m.Frequency
      SpecType := s.SpecType
      Name := s.Name.getD m.Name
      Disabled := s.Disabled.getD m.Disabled
      Generators := s.Generators.getD m.Generators }
  match m'.Generators.find? (fun g => (alookup generators g).isNone) with
  | some g => .error ("unknown generator: " ++ g)
  | none => .ok m'

/-! ## The script runner (src/unnamed/part_004, package script) -/

/-- The errors the runner can abort with; each constructor corresponds to
one `fmt.Errorf` / `errors.New` site in part_004 (the carried string is
the formatted detail). -/
inductive RunError
  | noActions
  | durationTooSmall
  | createGenerator (msg : String)
  | genNotFound (id : String)
  | reconfigureGen (id : String)
  | reconfigureProducer (id : String)
  | createProducer (msg : String)
  | disableNotFound (id : String)
  | enableNotFound (id : String)
  | traceNotFound (id : String)
  | traceRateMissing (id : String)
  | unknownActionType (t : String)
  | producerNotFound (id : String)
  | unknownGenerator (id : String)
deriving DecidableEq

/-- `script.Script`: the sorted action list plus the three registries and
the computed run duration. -/
structure Script where
  actions : List ScriptAction
  metricGenerators : List (String × MGen)
  metricProducers : List (String × MetricProducerSpec)
  traceProducers : List (String × Exemplar)
  duration : Int
deriving DecidableEq

/-- `script.calculateDuration`: the larger of the configured duration and
every action's `At`/`To`; a configured duration smaller than that is an
error, `0` means "use the computed value". -/
def calculateDuration (cd : Int) (actions : List ScriptAction) :
    Except RunError Duration :=
  match actions with
  | [] => .error .noActions
  | a0 :: _ =>
    let checkvalue :=
      actions.foldl (fun acc a => max (max acc a.At) a.To) a0.At
    if cd = 0 then .ok checkvalue
    else if cd < checkvalue then .error .durationTooSmall
    else .ok cd

/-- The generator-creation pass of `Script.Prepare`: walk the sorted
actions, building a generator for each `metricGenerator` action. -/
def prepareGenerators :
    List ScriptAction → List (String × MGen) →
    Except RunError (List (String × MGen))
  | [], gens => .ok gens
  | a :: rest, gens =>
    if a.ActionType = "metricGenerator" then
      match a.Spec with
      | .gen g =>
        match CreateMetricGenerator a.At g with
        | .error msg => .error (.createGenerator msg)
        | .ok gen => prepareGenerators rest (aset gens a.ID gen)
      | _ => .error (.createGenerator "missing type in metric generator spec")
    else
      prepareGenerators rest gens

/-- `Script.Prepare`: reject an empty script, sort, compute the duration,
pre-create every metric generator. -/
def Script.Prepare (s : Script) (cfgDuration : Int) :
    Except RunError Script :=
  if s.actions = [] then .error .noActions
  else
    let sorted := sortActions s.actions
    match calculateDuration cfgDuration sorted with
    | .error e => .error e
    | .ok dur =>
      match prepareGenerators sorted s.metricGenerators with
      | .error e => .error e
      | .ok gens =>
        .ok { s with actions := sorted, metricGenerators := gens,
                     duration := dur }

/-- One datapoint written by a gauge/sum producer: metric name, the tick,
the wall-clock timestamp and the folded value. -/
structure Datapoint where
  name : String
  tick : Int
  ts : Int
  value : ℚ
deriving DecidableEq

/-- One recorded generator emission: which generator, at which tick, and
the value `Emit` returned.  This is the "generator output sequence" of the
determinism claim. -/
structure GenLogEntry where
  genID : String
  tick : Int
  value : ℚ
deriving DecidableEq

/-- `metricproducer.calculateValue`: left-to-right fold of the producer's
generators over the running value, recording each `Emit` return value. -/
def calculateValue (tick : Int) (fuel : Nat) :
    List String → List (String × MGen) → RNG → ℚ →
    Except RunError (ℚ × List (String × MGen) × RNG × List GenLogEntry)
  | [], gens, r, v => .ok (v, gens, r, [])
  | n :: ns, gens, r, v =>
    match alookup gens n with
    | none => .error (.unknownGenerator n)
    | some g =>
      let (v', g', r') := g.Emit tick r fuel v
      match calculateValue tick fuel ns (aset gens n g') r' v' with
      | .error e => .error e
      | .ok (vf, gensf, rf, log) =>
        .ok (vf, gensf, rf, ⟨n, tick, v'⟩ :: log)

/-- `script.emitMetrics` fused with `MetricGauge.Emit`: visit the
producers in the given iteration order; each one that `ShouldEmit` records
the tick in `lastEmitted`, folds its generators and writes one
datapoint. -/
def emitMetricsGo (tick : Int) (ts : Int) (fuel : Nat) :
    List String → Script → RNG →
    Except RunError (Script × RNG × List Datapoint × List GenLogEntry)
  | [], s, r => .ok (s, r, [], [])
  | n :: ns, s, r =>
    match alookup s.metricProducers n with
    | none => .error (.producerNotFound n)
    | some p =>
      if p.ShouldEmit tick then
        match calculateValue tick fuel p.Generators s.metricGenerators r 0 with
        | .error e => .error e
        | .ok (v, gens', r', log) =>
          let p' := { p with lastEmitted := tick }
          let s' := { s with metricGenerators := gens',
                             metricProducers := aset s.metricProducers n p' }
          match emitMetricsGo tick ts fuel ns s' r' with
          | .error e => .error e
          | .ok (s'', r'', dps, log2) =>
            .ok (s'', r'', ⟨p.Name, tick, ts, v⟩ :: dps, log ++ log2)
      else
        emitMetricsGo tick ts fuel ns s r

/-- `traceproducer.scaledKindaNormal`: rejection-sample a non-negative
draw capped at `maxSigma = 3`, scaled into `[0, 1]`. -/
def scaledKindaNormal : RNG → Nat → ℚ × RNG
  | r, 0 => (0, r)
  | r, fuel + 1 =>
    let (x0, r') := r.next
    let x := min x0 3
    if 0 ≤ x then (x / 3, r') else scaledKindaNormal r' fuel

/-- The number of exemplar replays `exemplar.Emit` performs at a tick:
`int(rate)` truncated, `0` outside the `[At, To]` window, while disabled,
or when the interpolated rate is not positive. -/
def Exemplar.traceUnits (p : Exemplar) (tick : Int) : Nat :=
  if p.Disabled || decide (tick < p.AtTime) || decide (p.To < tick) then 0
  else
    let rate := p.rateAt tick
    if rate ≤ 0 then 0 else (Int.floor rate).toNat

/-- The run-RNG draws one exemplar replay consumes: the `Int64N` offset
draw and the two `scaledKindaNormal` jitters.  (Span IDs come from the
separate process-wide fixed-seed `idRNG` and do not touch the run RNG.) -/
def traceUnitDraws (r : RNG) (fuel : Nat) : RNG :=
  let (_, r1) := r.next
  let (_, r2) := scaledKindaNormal r1 fuel
  let (_, r3) := scaledKindaNormal r2 fuel
  r3

/-- Consume the run-RNG draws of `u` exemplar replays. -/
def consumeUnits (fuel : Nat) : Nat → RNG → RNG
  | 0, r => r
  | u + 1, r => consumeUnits fuel u (traceUnitDraws r fuel)

/-- `script.emitTraces`: visit the trace producers in the given iteration
order; each emits `traceUnits` replays' worth of RNG draws.  Span payloads
are opaque to every claim and are not collected. -/
def emitTracesGo (tick : Int) (fuel : Nat) :
    List String → Script → RNG → RNG
  | [], _, r => r
  | n :: ns, s, r =>
    match alookup s.traceProducers n with
    | none => emitTracesGo tick fuel ns s r
    | some p =>
      emitTracesGo tick fuel ns s (consumeUnits fuel (p.traceUnits tick) r)

/-- The action-dispatch switch of `script.tick` (part_004 lines 182–231),
applied to one action. -/
def dispatchAction (s : Script) (tick : Int) (action : ScriptAction) :
    Except RunError Script :=
  match action.ActionType with
  | "metricGenerator" =>
    match alookup s.metricGenerators action.ID with
    | none => .error (.genNotFound action.ID)
    | some g =>
      match action.Spec with
      | .gen gs =>
        match g.Reconfigure action.At gs with
        | .error _ => .error (.reconfigureGen action.ID)
        | .ok g' =>
          .ok { s with metricGenerators := aset s.metricGenerators action.ID g' }
      | _ => .error (.reconfigureGen action.ID)
  | "metric" =>
    match action.Spec with
    | .metric ms =>
      let recon : Except RunError Unit :=
        match alookup s.metricProducers action.ID with
        | none => .ok ()
        | some p =>
          match p.Reconfigure s.metricGenerators ms with
          | .error _ => .error (.reconfigureProducer action.ID)
          | .ok _ => .ok ()
      match recon with
      | .error e => .error e
      | .ok _ =>
        match CreateMetricExporter s.metricGenerators action.ID action.To ms with
        | .error msg => .error (.createProducer msg)
        | .ok p =>
          .ok { s with metricProducers := aset s.metricProducers action.ID p }
    | _ => .error (.createProducer "missing type in metric exporter spec")
  | "disableMetric" =>
    match alookup s.metricProducers action.ID with
    | none => .error (.disableNotFound action.ID)
    | some p =>
      .ok { s with metricProducers := aset s.metricProducers action.ID p.Disable }
  | "enableMetric" =>
    match alookup s.metricProducers action.ID with
    | none => .error (.enableNotFound action.ID)
    | some p =>
      .ok { s with metricProducers := aset s.metricProducers action.ID p.Enable }
  | "traceRate" =>
    match alookup s.traceProducers action.ID with
    | none => .error (.traceNotFound action.ID)
    | some p =>
      match action.Spec with
      | .traceRate (some rate) startOpt =>
        let p' := p.SetRate action.At action.To tick rate
        let p'' := match startOpt with
          | some st => p'.SetStart st
          | none => p'
        .ok { s with traceProducers := aset s.traceProducers action.ID p'' }
      | _ => .error (.traceRateMissing action.ID)
  | t => .error (.unknownActionType t)

/-- The dispatch prefix of `script.tick` (lines 178–233): if the action at
the cursor is due, advance the cursor by one and dispatch it.  Also
reports which action (if any) was dispatched. -/
def dispatchOne (s : Script) (rs : RunState) :
    Except RunError (Script × RunState × Option ScriptAction) :=
  match s.actions[rs.CurrentAction]? with
  | none => .ok (s, rs, none)
  | some action =>
    if action.At ≤ rs.Tick then
      match dispatchAction s rs.Tick action with
      | .error e => .error e
      | .ok s' =>
        .ok (s', { rs with CurrentAction := rs.CurrentAction + 1 }, some action)
    else
      .ok (s, rs, none)

/-- `script.tick`: dispatch any due action, then emit metrics, then emit
traces.  `morder`/`torder` are the map-iteration orders Go chooses for the
two producer registries this tick. -/
def tickStep (morder torder : List String) (fuel : Nat) (s : Script)
    (rs : RunState) :
    Except RunError
      (Script × RunState × Option ScriptAction × List Datapoint ×
        List GenLogEntry) :=
  match dispatchOne s rs with
  | .error e => .error e
  | .ok (s1, rs1, dispatched) =>
    let names := applyOrder morder (akeys s1.metricProducers)
    match emitMetricsGo rs1.Tick rs1.Wallclock fuel names s1 rs1.RND with
    | .error e => .error e
    | .ok (s2, r2, dps, log) =>
      let tnames := applyOrder torder (akeys s2.traceProducers)
      let r3 := emitTracesGo rs1.Tick fuel tnames s2 r2
      .ok (s2, { rs1 with RND := r3 }, dispatched, dps, log)

/-- The body of `script.run`'s loop, iterated: tick indices
`n, n+1, …, n+count−1`.  `morders`/`torders` supply each tick's map
iteration orders, `wallStart` the wall-clock instant of tick 0. -/
def runSteps (morders torders : Nat → List String) (wallStart : Int)
    (fuel : Nat) :
    Nat → Nat → Script → RunState →
    Except RunError (Script × RunState × List Datapoint × List GenLogEntry)
  | _, 0, s, rs => .ok (s, rs, [], [])
  | n, count + 1, s, rs =>
    let tick := (n : Int) * second
    let rs0 := { rs with Tick := tick, Wallclock := wallStart + tick }
    match tickStep (morders n) (torders n) fuel s rs0 with
    | .error e => .error e
    | .ok (s', rs', _, dps, log) =>
      match runSteps morders torders wallStart fuel (n + 1) count s' rs' with
      | .error e => .error e
      | .ok (s'', rs'', dps2, log2) =>
        .ok (s'', rs'', dps ++ dps2, log ++ log2)

/-- The initial `state.RunState` built by `state.NewRunState` from the
run duration and the seeded RNG stream. -/
def initRunState (dur : Int) (stream : Nat → ℚ) (wallStart : Int) :
    RunState :=
  { Tick := 0, Wallclock := wallStart, RunDuration := dur,
    RND := ⟨stream, 0⟩, CurrentAction := 0 }

/-- `script.run` after `Prepare`: `seconds := int64(duration.Seconds())`
(truncated toward zero, hence `Int.tdiv`), tick loop `0 … seconds`
inclusive.  `stream` abstracts the PCG stream `state.MakeRNG(seed)` for a
non-zero seed; the wall-clock pacing sleep has no observable effect and is
not modelled. -/
def Script.runFrom (s : Script) (stream : Nat → ℚ) (wallStart : Int)
    (morders torders : Nat → List String) (fuel : Nat) :
    Except RunError (Script × RunState × List Datapoint × List GenLogEntry) :=
  let seconds := Int.tdiv s.duration second
  runSteps morders torders wallStart fuel 0 (seconds + 1).toNat s
    (initRunState s.duration stream wallStart)

/-- `script.Simulate`: `Prepare` then `run`. -/
def Script.Simulate (s : Script) (cfgDuration : Int)
    (stream : Nat → ℚ) (wallStart : Int)
    (morders torders : Nat → List String) (fuel : Nat) :
    Except RunError (Script × RunState × List Datapoint × List GenLogEntry) :=
  match s.Prepare cfgDuration with
  | .error e => .error e
  | .ok s' => s'.runFrom stream wallStart morders torders fuel

/-! ## Timeline compiler (pkg/timeline/metric.go) -/

/-- `timeline.Segment`.  `ParseTimeline` defaults an empty `type` to
`"segment"` before compilation; `SegType` holds the defaulted value.  The
Go field `Type` is renamed, `StartTs`/`EndTs` are the unwrapped
`config.Duration` values. -/
structure Segment where
  SegType : String
  StartTs : Int
  EndTs : Int
  Start : Option ℚ
  Target : ℚ
deriving DecidableEq

/-- `timeline.Variant`. -/
structure Variant where
  VarAttributes : List (String × String)
  Timeline : List Segment
deriving DecidableEq

/-- `timeline.Metric`.  The Go field `Type` is renamed `MetricType`. -/
structure Metric where
  Name : String
  MetricType : String
  Frequency : Int
  ResourceAttributes : List (String × String)
  Variants : List Variant
deriving DecidableEq

/-- `timeline.getMetricFrequency`: `0` falls back to
`DefaultFrequency`. -/
def getMetricFrequency (frequency : Int) : Int :=
  if frequency = 0 then DefaultFrequency else frequency

/-- `timeline.makeMetricID`.  Modelled: the `xxhash.Sum64` of the key
string (an external library call) is replaced by the key string itself —
an injective stand-in; no claim depends on the hash value. -/
def makeMetricID (metric : Metric) (variant : Variant) : String :=
  metric.Name ++ "|" ++ metric.MetricType ++ "|" ++
    String.join (metric.ResourceAttributes.map (fun p => p.1 ++ "=" ++ p.2 ++ "|")) ++ "|" ++
    String.join (variant.VarAttributes.map (fun p => p.1 ++ "=" ++ p.2 ++ "|")) ++ "|"

/-- `timeline.generateGeneratorIDs`: the noise generator plus one ramp per
`"segment"` entry. -/
def generateGeneratorIDs (id : String) (timeline : List Segment) :
    List String :=
  (id ++ "_noise") ::
    ((List.range ((timeline.filter (fun tl => tl.SegType = "segment")).length)).map
      (fun i => id ++ "_ramp_" ++ toString i))

/-- The `lastAt` computation of `timeline.mergeMetric`: the largest
positive `end_ts` among `"segment"` entries, `0` if there is none. -/
def segMaxEnd (timeline : List Segment) : Int :=
  timeline.foldl
    (fun acc tl => if tl.SegType = "segment" && decide (acc < tl.EndTs) then tl.EndTs else acc) 0

/-- `timeline.addMetricToConfig`: the single `"metric"` action of a
variant.  `specToMap` serialises the gauge spec through JSON; `omitempty`
drops zero-valued `to`/`frequency` keys, which the option fields mirror. -/
def addMetricToConfig (id : String) (metric : Metric) (frequency : Int)
    (generators : List String) (startAt endAt : Int) : ScriptAction :=
  { At := startAt
    To := endAt
    ID := id
    ActionType := "metric"
    Spec := .metric
      { SpecType := metric.MetricType
        To := if endAt = 0 then none else some endAt
        Frequency := if frequency = 0 then none else some frequency
        Generators := some generators
        Name := some metric.Name
        Disabled := none } }

/-- `timeline.addMetricNoiseGenerator`: the fixed normal-noise generator
every variant gets (`At`/`To` are the zero value). -/
def addMetricNoiseGenerator (id : String) : ScriptAction :=
  { At := 0
    To := 0
    ID := id ++ "_noise"
    ActionType := "metricGenerator"
    Spec := .gen (.normalNoise
      { Target := 0, StdDev := -1, Variation := 5, Direction := "both" }) }

/-- The loop of `timeline.addMetricTimelineToScript`, carrying the running
`startAt`, `startValue`, `disabled` flag and ramp counter. -/
def segStartAt (dp : Segment) (sa : Int) : Int :=
  if dp.StartTs ≠ 0 then dp.StartTs else sa

/-- The `startValue` update of the timeline loop: a present `start`
overrides the carried value. -/
def segStartValue (dp : Segment) (sv : ℚ) : ℚ :=
  match dp.Start with
  | some v => v
  | none => sv

/-- The ramp duration of a segment: `end_ts − startAt`, or one second if
that is not positive. -/
def segDuration (dp : Segment) (sa : Int) : Int :=
  if dp.EndTs - sa ≤ 0 then second else dp.EndTs - sa

/-- The `metricGenerator` ramp action one segment compiles to. -/
def segRampAction (id : String) (nRamps : Nat) (dp : Segment) (sa : Int)
    (sv : ℚ) (rampCounter : Nat) : ScriptAction :=
  { ID := id ++ "_ramp_" ++ toString rampCounter
    ActionType := "metricGenerator"
    At := sa
    To := 0
    Spec := .gen (.ramp
      { Start := sv
        Target := dp.Target
        Duration := segDuration dp sa
        PrestartZero := false
        PostEndZero := rampCounter < nRamps - 1 }) }

/-- The loop body proper. -/
def addMetricTimelineGo (id : String) (nRamps : Nat) :
    List Segment → Int → ℚ → Bool → Nat →
    Except String (List ScriptAction)
  | [], _, _, _, _ => .ok []
  | dp :: rest, startAt0, startValue0, disabled, rampCounter =>
    if dp.SegType = "disable" then
      match addMetricTimelineGo id nRamps rest (segStartAt dp startAt0)
          (segStartValue dp startValue0) true rampCounter with
      | .error e => .error e
      | .ok acts =>
        .ok (⟨id, dp.StartTs, 0, "disableMetric", .empty⟩ :: acts)
    else if dp.SegType ≠ "segment" then
      .error ("unknown segment type " ++ dp.SegType ++ " for metric " ++ id)
    else
      match addMetricTimelineGo id nRamps rest dp.EndTs dp.Target false
          (rampCounter + 1) with
      | .error e => .error e
      | .ok acts =>
        if disabled then
          .ok (⟨id, segStartAt dp startAt0, 0, "enableMetric", .empty⟩ ::
            segRampAction id nRamps dp (segStartAt dp startAt0)
              (segStartValue dp startValue0) rampCounter :: acts)
        else
          .ok (segRampAction id nRamps dp (segStartAt dp startAt0)
            (segStartValue dp startValue0) rampCounter :: acts)

/-- `timeline.addMetricTimelineToScript`. -/
def addMetricTimelineToScript (id : String) (timeline : List Segment) :
    Except String (List ScriptAction) :=
  match timeline with
  | [] => .ok []
  | first :: _ =>
    let startValue := (first.Start).getD 0
    let nRamps := (timeline.filter (fun dp => dp.SegType = "segment")).length
    addMetricTimelineGo id nRamps timeline first.StartTs startValue false 0

/-- The per-variant body of `timeline.mergeMetric`: validate, then emit
the `"metric"` action, the noise generator and the timeline actions, in
`AddAction` order. -/
def compileVariant (metric : Metric) (variant : Variant) :
    Except String (List ScriptAction) :=
  if variant.Timeline = [] then
    .error ("no timeline for metric " ++ metric.Name)
  else
    let id := makeMetricID metric variant
    let frequency := getMetricFrequency metric.Frequency
    let generators := generateGeneratorIDs id variant.Timeline
    let firstAt := ((variant.Timeline.head?).map (·.StartTs)).getD 0
    let lastAt := segMaxEnd variant.Timeline
    if lastAt = 0 then
      .error ("lastAt is 0 for metric " ++ id)
    else
      match addMetricTimelineToScript id variant.Timeline with
      | .error e => .error e
      | .ok tlActs =>
        .ok (addMetricToConfig id metric frequency generators firstAt lastAt ::
          addMetricNoiseGenerator id :: tlActs)

/-- `timeline.mergeMetric`: every variant in order, actions appended. -/
def mergeMetric (metric : Metric) : Except String (List ScriptAction) :=
  metric.Variants.foldlM
    (fun acc variant =>
      match compileVariant metric variant with
      | .error e => .error e
      | .ok acts => .ok (acc ++ acts)) []

/-! ## Concrete instances used by witnesses and counterexamples -/

/-- A tiny ramp action (`g1`, due at tick 0). -/
def c3Act1 : ScriptAction :=
  ⟨"g1", 0, 0, "metricGenerator", .gen (.ramp ⟨0, 1, 5, false, false⟩)⟩

/-- A second ramp action (`g2`), likewise due at tick 0. -/
def c3Act2 : ScriptAction :=
  ⟨"g2", 0, 0, "metricGenerator", .gen (.ramp ⟨0, 1, 5, false, false⟩)⟩

/-- The registry value both of them configure. -/
def c3Gen : MGen := .ramp ⟨⟨0, 1, 5, false, false⟩, 0⟩

/-- A prepared script with the two tick-0 actions. -/
def c3Script : Script :=
  ⟨[c3Act1, c3Act2], [("g1", c3Gen), ("g2", c3Gen)], [], [], 0⟩

/-- The run state at tick 0, cursor 0. -/
def c3RS : RunState := ⟨0, 0, 0, ⟨fun _ => 0, 0⟩, 0⟩

/-- The observable content of a datapoint apart from its wall-clock
timestamp: metric name, tick, value. -/
def dpProj (d : Datapoint) : String × Int × ℚ :=
  (d.name, d.tick, d.value)

/-- Two run states that agree on everything except the wall-clock. -/
def sameRunState (rs1 rs2 : RunState) : Prop :=
  rs1.Tick = rs2.Tick ∧ rs1.RND = rs2.RND ∧
    rs1.CurrentAction = rs2.CurrentAction ∧
    rs1.RunDuration = rs2.RunDuration

/-- The generator output sequence of a run result. -/
def runGenLog
    (res : Except RunError
      (Script × RunState × List Datapoint × List GenLogEntry)) :
    Except RunError (List GenLogEntry) :=
  res.map (fun x => x.2.2.2)

/-- The datapoints of a run result, minus wall-clock timestamps. -/
def runDatapointValues
    (res : Except RunError
      (Script × RunState × List Datapoint × List GenLogEntry)) :
    Except RunError (List (String × Int × ℚ)) :=
  res.map (fun x => x.2.2.1.map dpProj)

/-- The value generator `g` emitted at tick `t` during a run, if any. -/
def genValueAt
    (res : Except RunError
      (Script × RunState × List Datapoint × List GenLogEntry))
    (g : String) (t : Int) : Option ℚ :=
  match res with
  | .error _ => none
  | .ok (_, _, _, log) =>
    (log.find? (fun e => e.genID = g && e.tick == t)).map (fun e => e.value)

/-- Normal-noise spec used by the determinism counterexample: mean 0,
standard deviation 1, wide clamp. -/
def cxGenSpec : MetricNormalNoiseSpec := ⟨0, 1, 100, "both"⟩

/-- Its registry value. -/
def cxGen : MGen := .normal ⟨cxGenSpec, 1⟩

/-- A gauge spec reading one generator, emitting every tick. -/
def cxMetricSpec (g : String) : GaugeActionSpec :=
  ⟨"gauge", none, some 0, some [g], none, none⟩

/-- Determinism counterexample script: two noise generators and two
single-generator gauges, one action per tick over ticks 0–3 (already in
sorted order, generators pre-created, as `Prepare` leaves them). -/
def cxScript : Script :=
  ⟨[⟨"g1", 0, 0, "metricGenerator", .gen (.normalNoise cxGenSpec)⟩,
    ⟨"g2", 1 * second, 0, "metricGenerator", .gen (.normalNoise cxGenSpec)⟩,
    ⟨"p1", 2 * second, 0, "metric", .metric (cxMetricSpec "g1")⟩,
    ⟨"p2", 3 * second, 0, "metric", .metric (cxMetricSpec "g2")⟩],
   [("g1", cxGen), ("g2", cxGen)], [], [], 3 * second⟩

/-- The tick dispatcher can only find a `metricGenerator` action's
generator if `Prepare` registered it: the registry covers the script. -/
def covered (s : Script) : Prop :=
  ∀ a ∈ s.actions, a.ActionType = "metricGenerator" →
    (alookup s.metricGenerators a.ID).isSome

/-- C5 scenario: a single ramp `0 → 100` over 10 minutes (`600 s`),
anchored at tick 0, no zero flags. -/
def c5RampAct : ScriptAction :=
  ⟨"ramp1", 0, 0, "metricGenerator",
    .gen (.ramp ⟨0, 100, 600 * second, false, false⟩)⟩

/-- C5 scenario: a gauge over that ramp; `frequency` absent (defaults to
10 s), `to` absent (defaults to the action's `To` = 600 s). -/
def c5MetricAct : ScriptAction :=
  ⟨"m1", 0, 600 * second, "metric",
    .metric ⟨"gauge", none, none, some ["ramp1"], none, none⟩⟩

/-- The C5 scenario script: the ramp and its gauge, configured duration
left to be computed (`0`). -/
def c5Script : Script := ⟨[c5RampAct, c5MetricAct], [], [], [], 0⟩

/-- The C5 run: `Simulate` with computed duration; the RNG stream, map
orders and fuel are irrelevant (a ramp draws nothing and there is a single
producer). -/
def c5Run : Except RunError
    (Script × RunState × List Datapoint × List GenLogEntry) :=
  c5Script.Simulate 0 (fun _ => 0) 0 (fun _ => []) (fun _ => []) 0

/-- The datapoints the C5 run actually produces: one per tick
`t = 10 s, 20 s, …, 600 s` (none at `t = 0`), with value `t/6` seconds,
i.e. `5·k/3` at the `k`-th emission. -/
def c5Expected : List (String × Int × ℚ) :=
  (List.range 60).map
    (fun k => ("m1", ((k : Int) + 1) * (10 * second), (5 * ((k : Int) + 1)) / 3))

/-! # Theorems -/

/-! ## Ramp interpolation facts -/

/-- With a positive duration and the pre-start flag off, evaluation at or
before the anchor yields `start`. -/
theorem intrerpolate_at_or_before_start (s t : ℚ) (A now D : Int)
    (post : Bool) (hd : 0 < D) (hnow : now ≤ A) :
    intrerpolate s t A now D false post = s := by
  unfold intrerpolate
  rw [if_neg (show ¬(D ≤ 0) by omega), if_pos (show now - A ≤ 0 by omega)]
  simp

/-- With a positive duration and the post-end flag off, evaluation at or
after `anchor + duration` yields `target` (the pre-start flag is not
consulted there). -/
theorem intrerpolate_at_or_after_end (s t : ℚ) (A now D : Int) (pre : Bool)
    (hd : 0 < D) (hnow : A + D ≤ now) :
    intrerpolate s t A now D pre false = t := by
  unfold intrerpolate
  rw [if_neg (show ¬(D ≤ 0) by omega), if_neg (show ¬(now - A ≤ 0) by omega),
    if_pos (show D ≤ now - A by omega)]
  simp

/-- Strictly inside the window, evaluation is the affine interpolation
formula, whatever the flags. -/
theorem intrerpolate_interior (s t : ℚ) (A now D : Int)
    (pre post : Bool) (h1 : A < now) (h2 : now < A + D) :
    intrerpolate s t A now D pre post =
      s + (t - s) * (((now - A : Int) : ℚ) / ((D : Int) : ℚ)) := by
  unfold intrerpolate
  rw [if_neg (show ¬(D ≤ 0) by omega), if_neg (show ¬(now - A ≤ 0) by omega),
    if_neg (show ¬(D ≤ now - A) by omega)]

/-- C1.  Ramp reconfiguration: for a valid new spec (positive duration),
reconfiguring at `T ≤ anchor` replaces the spec wholesale with anchor `T`;
reconfiguring at `T > anchor` sets the new start to the old rule's
interpolated value at `T` and moves the anchor to `T`, and — provided the
new spec's `prestart_zero` flag is off — the emitted value at tick `T` is
unchanged. -/
theorem C1_ramp_reconfigure_continuity (m : MetricRamp) (t : Int)
    (ns : MetricRampSpec) (rs : RunState) (hd : 0 < ns.Duration) :
    (t ≤ m.atTime → m.Reconfigure t ns = .ok ⟨ns, t⟩) ∧
    (m.atTime < t →
      m.Reconfigure t ns = .ok ⟨{ ns with Start := m.EmitVal t }, t⟩ ∧
      (ns.PrestartZero = false → rs.Tick = t → ∀ m' v,
        m.Reconfigure t ns = .ok m' → m'.Emit rs v = m.Emit rs v)) := by
  constructor
  · intro hle
    unfold MetricRamp.Reconfigure
    rw [if_neg (show ¬(ns.Duration ≤ 0) by omega), if_pos hle]
  · intro hlt
    have hrec : m.Reconfigure t ns =
        .ok ⟨{ ns with Start := m.EmitVal t }, t⟩ := by
      unfold MetricRamp.Reconfigure
      rw [if_neg (show ¬(ns.Duration ≤ 0) by omega),
        if_neg (show ¬(t ≤ m.atTime) by omega)]
      rfl
    refine ⟨hrec, ?_⟩
    intro hpre htick m' v hm'
    rw [hrec] at hm'
    cases hm'
    unfold MetricRamp.Emit
    rw [htick]
    congr 1
    show MetricRamp.EmitVal ⟨{ ns with Start := m.EmitVal t }, t⟩ t = _
    unfold MetricRamp.EmitVal
    simp only
    rw [hpre]
    exact intrerpolate_at_or_before_start _ _ _ _ _ _ hd le_rfl

/-- C1 witness: a ramp `0 → 100` over `10`, anchored at `0`, reconfigured
at `t = 5` to target `200` over `15`: the new start is the old
interpolated value `50`. -/
theorem C1_witness :
    MetricRamp.Reconfigure ⟨⟨0, 100, 10, false, false⟩, 0⟩ 5
        ⟨0, 200, 15, false, false⟩ =
      .ok ⟨⟨50, 200, 15, false, false⟩, 5⟩ := by
  have h := (C1_ramp_reconfigure_continuity ⟨⟨0, 100, 10, false, false⟩, 0⟩ 5
    ⟨0, 200, 15, false, false⟩ ⟨5, 0, 0, ⟨fun _ => 0, 0⟩, 0⟩
    (by decide)).2 (by decide)
  have hval : MetricRamp.EmitVal ⟨⟨0, 100, 10, false, false⟩, 0⟩ 5 = 50 := by
    rw [MetricRamp.EmitVal, intrerpolate_interior 0 100 0 5 10 false false
      (by decide) (by decide)]
    norm_num
  rw [hval] at h
  exact h.1

/-- C1 counterexample: with the new spec's `prestart_zero` flag set, the
reconfigured ramp emits `0` at the reconfigure tick where the old rule
emitted `50` — the emitted value is *not* unconditionally unchanged. -/
theorem C1_cex :
    MetricRamp.Reconfigure ⟨⟨0, 100, 10, true, false⟩, 0⟩ 5
        ⟨0, 200, 15, true, false⟩ =
      .ok ⟨⟨50, 200, 15, true, false⟩, 5⟩ ∧
    MetricRamp.Emit ⟨⟨50, 200, 15, true, false⟩, 5⟩
        ⟨5, 0, 0, ⟨fun _ => 0, 0⟩, 0⟩ 0 = 0 ∧
    MetricRamp.Emit ⟨⟨0, 100, 10, true, false⟩, 0⟩
        ⟨5, 0, 0, ⟨fun _ => 0, 0⟩, 0⟩ 0 = 50 ∧
    (0 : ℚ) ≠ 50 := by
  refine ⟨?_, ?_, ?_, by norm_num⟩
  · unfold MetricRamp.Reconfigure
    rw [if_neg (by decide), if_neg (by decide)]
    have : intrerpolate 0 100 0 5 10 true false = 50 := by
      rw [intrerpolate_interior 0 100 0 5 10 true false (by decide) (by decide)]
      norm_num
    simp only [this]
  · unfold MetricRamp.Emit MetricRamp.EmitVal intrerpolate
    norm_num
  · unfold MetricRamp.Emit MetricRamp.EmitVal
    rw [intrerpolate_interior 0 100 0 5 10 true false (by decide) (by decide)]
    norm_num

/-- C4 (amended).  For a ramp with positive duration: with
`prestart_zero` off, `Emit` at the anchor adds `start` onto the incoming
value; with `postend_zero` off, `Emit` at `anchor + duration` adds
`target`; strictly between the endpoints the contributed value is the
affine interpolation `start + (target − start)·(tick − anchor)/duration`,
whatever the flags, and it is monotone between the endpoints (increasing
when `start ≤ target`, decreasing when `target ≤ start`). -/
theorem C4_ramp_linear (m : MetricRamp) (rs : RunState) (v : ℚ)
    (hd : 0 < m.spec.Duration) :
    (m.spec.PrestartZero = false → rs.Tick = m.atTime →
      m.Emit rs v = m.spec.Start + v) ∧
    (m.spec.PostEndZero = false → rs.Tick = m.atTime + m.spec.Duration →
      m.Emit rs v = m.spec.Target + v) ∧
    (∀ t, m.atTime < t → t < m.atTime + m.spec.Duration →
      m.EmitVal t = m.spec.Start +
        (m.spec.Target - m.spec.Start) *
          (((t - m.atTime : Int) : ℚ) / ((m.spec.Duration : Int) : ℚ))) ∧
    (∀ t1 t2, m.atTime < t1 → t1 ≤ t2 → t2 < m.atTime + m.spec.Duration →
      (m.spec.Start ≤ m.spec.Target → m.EmitVal t1 ≤ m.EmitVal t2) ∧
      (m.spec.Target ≤ m.spec.Start → m.EmitVal t2 ≤ m.EmitVal t1)) := by
  have interior : ∀ t, m.atTime < t → t < m.atTime + m.spec.Duration →
      m.EmitVal t = m.spec.Start +
        (m.spec.Target - m.spec.Start) *
          (((t - m.atTime : Int) : ℚ) / ((m.spec.Duration : Int) : ℚ)) := by
    intro t h1 h2
    unfold MetricRamp.EmitVal
    rw [intrerpolate_interior _ _ _ _ _ _ _ h1 h2]
  refine ⟨?_, ?_, interior, ?_⟩
  · intro hpre htick
    unfold MetricRamp.Emit MetricRamp.EmitVal
    rw [htick, hpre, intrerpolate_at_or_before_start _ _ _ _ _ _ hd le_rfl]
  · intro hpost htick
    unfold MetricRamp.Emit MetricRamp.EmitVal
    rw [htick, hpost, intrerpolate_at_or_after_end _ _ _ _ _ _ hd le_rfl]
  · intro t1 t2 h1 h12 h2
    rw [interior t1 h1 (by omega), interior t2 (by omega) h2]
    have hD : (0 : ℚ) < ((m.spec.Duration : Int) : ℚ) := by exact_mod_cast hd
    have hle : ((t1 - m.atTime : Int) : ℚ) ≤ ((t2 - m.atTime : Int) : ℚ) := by
      exact_mod_cast (show t1 - m.atTime ≤ t2 - m.atTime by omega)
    have hdiv : ((t1 - m.atTime : Int) : ℚ) / ((m.spec.Duration : Int) : ℚ) ≤
        ((t2 - m.atTime : Int) : ℚ) / ((m.spec.Duration : Int) : ℚ) :=
      div_le_div_of_nonneg_right hle hD.le
    constructor
    · intro hst
      have := mul_le_mul_of_nonneg_left hdiv (by linarith :
        (0 : ℚ) ≤ m.spec.Target - m.spec.Start)
      linarith
    · intro hts
      have := mul_le_mul_of_nonpos_left hdiv (by linarith :
        m.spec.Target - m.spec.Start ≤ (0 : ℚ))
      linarith

/-- C4 witness: the `0 → 100` over `10` ramp adds `start = 0` at its
anchor. -/
theorem C4_witness :
    MetricRamp.Emit ⟨⟨0, 100, 10, false, false⟩, 0⟩
      ⟨0, 0, 0, ⟨fun _ => 0, 0⟩, 0⟩ 3 = 0 + 3 :=
  (C4_ramp_linear ⟨⟨0, 100, 10, false, false⟩, 0⟩
    ⟨0, 0, 0, ⟨fun _ => 0, 0⟩, 0⟩ 3 (by decide)).1 rfl rfl

/-- C4 counterexample: with `prestart_zero` set, `Emit` at the anchor
returns `0`, not `start = 5` — the claim's unconditional "Emit at the
anchor returns start" fails. -/
theorem C4_cex :
    MetricRamp.Emit ⟨⟨5, 10, 100, true, false⟩, 0⟩
      ⟨0, 0, 0, ⟨fun _ => 0, 0⟩, 0⟩ 0 = 0 ∧
    (0 : ℚ) ≠ 5 + 0 := by
  constructor
  · unfold MetricRamp.Emit MetricRamp.EmitVal intrerpolate
    norm_num
  · norm_num

/-! ## Producer gating (C2) -/

/-- `ShouldEmit` unfolded to its three conditions. -/
theorem shouldEmit_iff (m : MetricProducerSpec) (t : Int) :
    m.ShouldEmit t = true ↔
      m.Disabled = false ∧ m.lastEmitted + m.Frequency ≤ t ∧
        (m.To = 0 ∨ t ≤ m.To) := by
  simp [MetricProducerSpec.ShouldEmit, MetricProducerSpec.IsDisabled,
    MetricProducerSpec.emitDueToFrequency, MetricProducerSpec.emitDueToTo,
    Bool.not_eq_true', and_assoc]

theorem gaugeEmissions_cons_true {m : MetricProducerSpec} {t : Int}
    {ts : List Int} (h : m.ShouldEmit t = true) :
    gaugeEmissions m (t :: ts) =
      t :: gaugeEmissions { m with lastEmitted := t } ts := by
  simp [gaugeEmissions, gaugeEmitGate, h]

theorem gaugeEmissions_cons_false {m : MetricProducerSpec} {t : Int}
    {ts : List Int} (h : m.ShouldEmit t = false) :
    gaugeEmissions m (t :: ts) = gaugeEmissions m ts := by
  simp [gaugeEmissions, gaugeEmitGate, h]

/-- A disabled producer never emits. -/
theorem gaugeEmissions_disabled : ∀ (ts : List Int) (m : MetricProducerSpec),
    m.Disabled = true → gaugeEmissions m ts = []
  | [], _, _ => rfl
  | t :: ts, m, h => by
    have hse : m.ShouldEmit t = false := by
      cases hb : m.ShouldEmit t
      · rfl
      · have := ((shouldEmit_iff m t).mp hb).1
        rw [h] at this
        exact absurd this (by decide)
    rw [gaugeEmissions_cons_false hse]
    exact gaugeEmissions_disabled ts m h

/-- Every emission respects the producer's `to` bound. -/
theorem gaugeEmissions_to : ∀ (ts : List Int) (m : MetricProducerSpec),
    ∀ b ∈ gaugeEmissions m ts, m.To = 0 ∨ b ≤ m.To
  | [], _ => by simp [gaugeEmissions]
  | t :: ts, m => by
    by_cases hse : m.ShouldEmit t = true
    · rw [gaugeEmissions_cons_true hse]
      intro b hb
      rcases List.mem_cons.mp hb with rfl | hb'
      · exact ((shouldEmit_iff m b).mp hse).2.2
      · exact gaugeEmissions_to ts { m with lastEmitted := t } b hb'
    · have hse' : m.ShouldEmit t = false := by
        cases hb : m.ShouldEmit t
        · rfl
        · exact absurd hb hse
      rw [gaugeEmissions_cons_false hse']
      exact gaugeEmissions_to ts m

/-- Every emission is at least one `frequency` after the incoming
`lastEmitted`, provided ticks increase and start no earlier than
`lastEmitted`. -/
theorem gaugeEmissions_lower : ∀ (ts : List Int) (m : MetricProducerSpec),
    ts.Pairwise (· < ·) → (∀ u ∈ ts, m.lastEmitted ≤ u) →
    ∀ b ∈ gaugeEmissions m ts, m.lastEmitted + m.Frequency ≤ b
  | [], _, _, _ => by simp [gaugeEmissions]
  | t :: ts, m, hp, hlow => by
    rw [List.pairwise_cons] at hp
    by_cases hse : m.ShouldEmit t = true
    · rw [gaugeEmissions_cons_true hse]
      intro b hb
      have hfreq : m.lastEmitted + m.Frequency ≤ t :=
        ((shouldEmit_iff m t).mp hse).2.1
      rcases List.mem_cons.mp hb with rfl | hb'
      · exact hfreq
      · have hlow' : ∀ u ∈ ts,
            ({ m with lastEmitted := t } : MetricProducerSpec).lastEmitted ≤ u :=
          fun u hu => (hp.1 u hu).le
        have := gaugeEmissions_lower ts { m with lastEmitted := t }
          hp.2 hlow' b hb'
        have hlt : m.lastEmitted ≤ t := hlow t (List.mem_cons_self t ts)
        simp only at this
        omega
    · have hse' : m.ShouldEmit t = false := by
        cases hb : m.ShouldEmit t
        · rfl
        · exact absurd hb hse
      rw [gaugeEmissions_cons_false hse']
      exact gaugeEmissions_lower ts m hp.2 (fun u hu => hlow u (by simp [hu]))

/-- Consecutive (indeed: any two) emissions are at least `frequency`
apart, for increasing tick sequences. -/
theorem gaugeEmissions_pairwise : ∀ (ts : List Int) (m : MetricProducerSpec),
    ts.Pairwise (· < ·) →
    (gaugeEmissions m ts).Pairwise (fun a b => a + m.Frequency ≤ b)
  | [], _, _ => by simp [gaugeEmissions]
  | t :: ts, m, hp => by
    rw [List.pairwise_cons] at hp
    by_cases hse : m.ShouldEmit t = true
    · rw [gaugeEmissions_cons_true hse]
      refine List.Pairwise.cons ?_ ?_
      · intro b hb
        have := gaugeEmissions_lower ts { m with lastEmitted := t } hp.2
          (fun u hu => (hp.1 u hu).le) b hb
        simpa using this
      · have := gaugeEmissions_pairwise ts { m with lastEmitted := t } hp.2
        simpa using this
    · have hse' : m.ShouldEmit t = false := by
        cases hb : m.ShouldEmit t
        · rfl
        · exact absurd hb hse
      rw [gaugeEmissions_cons_false hse']
      exact gaugeEmissions_pairwise ts m hp.2

/-- C2.  Gauge/Sum gating invariant: `Emit` writes a datapoint only when
the producer is not disabled, `tick ≥ lastEmitted + frequency` and
(`to = 0` or `tick ≤ to`); consequently, over any strictly increasing tick
sequence, a disabled producer never emits, no emission exceeds a non-zero
`to`, and any two emissions are at least `frequency` apart. -/
theorem C2_gauge_gating (m : MetricProducerSpec) (ticks : List Int)
    (hsort : ticks.Pairwise (· < ·)) :
    (∀ t, (gaugeEmitGate m t).2 = true →
      m.Disabled = false ∧ m.lastEmitted + m.Frequency ≤ t ∧
        (m.To = 0 ∨ t ≤ m.To)) ∧
    (m.Disabled = true → gaugeEmissions m ticks = []) ∧
    (∀ t ∈ gaugeEmissions m ticks, m.To = 0 ∨ t ≤ m.To) ∧
    (gaugeEmissions m ticks).Pairwise (fun a b => a + m.Frequency ≤ b) := by
  refine ⟨?_, gaugeEmissions_disabled ticks m, gaugeEmissions_to ticks m,
    gaugeEmissions_pairwise ticks m hsort⟩
  intro t hgate
  refine (shouldEmit_iff m t).mp ?_
  by_contra hno
  have hse : m.ShouldEmit t = false := by
    cases hb : m.ShouldEmit t
    · rfl
    · exact absurd hb hno
  rw [gaugeEmitGate, hse] at hgate
  simp at hgate

/-- C2 witness: frequency 10, `to = 25`, ticks `0,5,11,22,30` emit at
`11` and `22` only, which are `≥ 10` apart. -/
theorem C2_witness :
    (gaugeEmissions ⟨25, {}, [], 10, "gauge", "m", false, 0⟩
        [0, 5, 11, 22, 30]).Pairwise (fun a b => a + (10 : Int) ≤ b) :=
  (C2_gauge_gating ⟨25, {}, [], 10, "gauge", "m", false, 0⟩
    [0, 5, 11, 22, 30] (by decide)).2.2.2

/-! ## Trace-rate reconfiguration (C7) -/

/-- `traceproducer.intrerpolate` at or before the window start returns
`start`, when the window is non-degenerate. -/
theorem traceInterpolate_at_or_before (s t : ℚ) (A now D : Int)
    (hd : 0 < D) (hnow : now ≤ A) :
    traceInterpolate s t A now D = s := by
  unfold traceInterpolate
  rw [if_neg (show ¬(D ≤ 0) by omega), if_pos (show now - A ≤ 0 by omega)]

/-- C7 (amended).  `SetRate(at, to, now, rate)` captures the producer's
currently interpolated rate as the new `start`, then installs the new
window and target rate; the interpolated rate curve is unchanged at the
dispatch tick provided the dispatch tick is at most the action's `at` (in
particular when the action is dispatched exactly at its scheduled time)
and `at < to`.  At dispatch, a `traceRate` action naming an unknown trace
producer errors, as does one whose spec lacks a float `rate`; otherwise
the dispatcher calls `SetRate(at, to, tick, rate)` and optionally
`SetStart`. -/
theorem C7_trace_rate_reconfigure (ex : Exemplar) (atArg toArg now : Int)
    (rate : ℚ) (s : Script) (a : ScriptAction) (tick : Int)
    (htype : a.ActionType = "traceRate") :
    (ex.SetRate atArg toArg now rate =
      ⟨atArg, toArg, ex.Disabled, rate, ex.rateAt now⟩) ∧
    (now ≤ atArg → atArg < toArg →
      (ex.SetRate atArg toArg now rate).rateAt now = ex.rateAt now) ∧
    (alookup s.traceProducers a.ID = none →
      dispatchAction s tick a = .error (.traceNotFound a.ID)) ∧
    (∀ p stOpt, alookup s.traceProducers a.ID = some p →
      a.Spec = .traceRate none stOpt →
      dispatchAction s tick a = .error (.traceRateMissing a.ID)) ∧
    (∀ p r, alookup s.traceProducers a.ID = some p →
      a.Spec = .traceRate (some r) none →
      dispatchAction s tick a =
        .ok ({ s with
               traceProducers :=
                 aset s.traceProducers a.ID (p.SetRate a.At a.To tick r) })) ∧
    (∀ p r st, alookup s.traceProducers a.ID = some p →
      a.Spec = .traceRate (some r) (some st) →
      dispatchAction s tick a =
        .ok ({ s with
               traceProducers :=
                 aset s.traceProducers a.ID
                   ((p.SetRate a.At a.To tick r).SetStart st) })) := by
  refine ⟨rfl, ?_, ?_, ?_, ?_, ?_⟩
  · intro h1 h2
    show traceInterpolate (ex.rateAt now) rate atArg now (toArg - atArg) = _
    rw [traceInterpolate_at_or_before _ _ _ _ _ (by omega) h1]
  · intro hnone
    simp only [dispatchAction, htype, hnone]
  · intro p stOpt hsome hspec
    simp only [dispatchAction, htype, hsome, hspec]
  · intro p r hsome hspec
    simp only [dispatchAction, htype, hsome, hspec]
  · intro p r st hsome hspec
    simp only [dispatchAction, htype, hsome, hspec]

/-- C7 witness: a producer ramping `0 → 100` over `[0, 10]` reconfigured
by `SetRate(5, 10, 3, 7)` keeps rate `30` at the dispatch tick `3`. -/
theorem C7_witness :
    (Exemplar.SetRate ⟨0, 10, false, 100, 0⟩ 5 10 3 7).rateAt 3 =
      Exemplar.rateAt ⟨0, 10, false, 100, 0⟩ 3 :=
  (C7_trace_rate_reconfigure ⟨0, 10, false, 100, 0⟩ 5 10 3 7
    ⟨[], [], [], [], 0⟩ ⟨"x", 0, 0, "traceRate", .empty⟩ 0 rfl).2.1
    (by decide) (by decide)

/-- C7 counterexample: the same producer reconfigured at tick `5` for an
action scheduled at `at = 0` (`SetRate(0, 10, 5, 0)`): the new rate curve
gives `25` at the dispatch tick where the old one gave `50` — the curve is
*not* unconditionally unchanged at the dispatch tick. -/
theorem C7_cex :
    (Exemplar.SetRate ⟨0, 10, false, 100, 0⟩ 0 10 5 0).rateAt 5 = 25 ∧
    Exemplar.rateAt ⟨0, 10, false, 100, 0⟩ 5 = 50 ∧ (25 : ℚ) ≠ 50 := by
  refine ⟨?_, ?_, by norm_num⟩
  · show traceInterpolate (traceInterpolate 0 100 0 5 (10 - 0)) 0 0 5 (10 - 0) = 25
    unfold traceInterpolate
    norm_num
  · show traceInterpolate 0 100 0 5 (10 - 0) = 50
    unfold traceInterpolate
    norm_num

/-! ## Poisson noise (C8) -/

/-- The `positive` direction clamp: `if y < 0 then 0 else y` is
non-negative. -/
theorem dirPos_nonneg (y : ℝ) : 0 ≤ if y < 0 then (0 : ℝ) else y := by
  split
  · exact le_refl (0 : ℝ)
  · next h => exact not_lt.mp h

/-- The `negative` direction flip: `if 0 < y then -y else y` is
non-positive. -/
theorem dirNeg_nonpos (y : ℝ) : (if 0 < y then -y else y) ≤ 0 := by
  split
  · next h => linarith
  · next h => exact not_lt.mp h

/-- C8 (amended).  For every generator state, draw stream and fuel:
`Emit` with direction `"positive"` returns a non-negative value, `Emit`
with direction `"negative"` returns a non-positive value, and
`samplePoisson(0, r)` is `0` for every RNG (the `λ ≤ 0` branch).  The
values need not be integers: the clamp bounds
`max(target − variation, 0)` / `target + variation` are arbitrary
floats. -/
theorem C8_poisson_output (m : MetricPoissonNoise) (r : RNGr) (fuel : Nat) :
    (m.spec.Direction = "positive" → 0 ≤ (m.Emit r fuel).1) ∧
    (m.spec.Direction = "negative" → (m.Emit r fuel).1 ≤ 0) ∧
    (∀ (r2 : RNGr) (fuel2 : Nat), samplePoisson 0 r2 fuel2 = (0, r2)) := by
  refine ⟨?_, ?_, fun r2 fuel2 => by simp [samplePoisson]⟩
  · intro hpos
    unfold MetricPoissonNoise.Emit
    rcases hsp : samplePoisson m.spec.Target r fuel with ⟨sample0, r'⟩
    simp only [hsp, hpos, ↓reduceIte]
    exact dirPos_nonneg _
  · intro hneg
    unfold MetricPoissonNoise.Emit
    rcases hsp : samplePoisson m.spec.Target r fuel with ⟨sample0, r'⟩
    simp only [hsp, hneg,
      if_neg (show ¬("negative" = "positive" : Prop) by decide), ↓reduceIte]
    exact dirNeg_nonpos _

/-- C8 witness: a `λ = 1`, `variation = 1`, positive-direction generator
emits a non-negative value on the all-zero stream. -/
theorem C8_witness :
    0 ≤ (MetricPoissonNoise.Emit ⟨⟨1, 1, "positive"⟩⟩ ⟨fun _ => 0, 0⟩ 3).1 :=
  (C8_poisson_output ⟨⟨1, 1, "positive"⟩⟩ ⟨fun _ => 0, 0⟩ 3).1 rfl

/-- C8 counterexample: with `target = 5.5` and `variation = 0.2`
(direction `"positive"`), the stream whose first draw is `0` makes
`samplePoisson` return `0`, which the clamp raises to the lower bound
`5.3` — not an integer.  The claim's "returns a non-negative integer"
fails. -/
theorem C8_cex :
    (MetricPoissonNoise.Emit ⟨⟨11 / 2, 1 / 5, "positive"⟩⟩
        ⟨fun _ => 0, 0⟩ 2).1 = 53 / 10 ∧
    ∀ n : ℤ, ((n : ℝ)) ≠ 53 / 10 := by
  constructor
  · have hL1 : Real.exp (-(11 / 2 : ℝ)) < 1 := by
      rw [Real.exp_lt_one_iff]
      norm_num
    have hk : knuthLoop (Real.exp (-(11 / 2 : ℝ))) ⟨fun _ => 0, 0⟩ 2 0 1 =
        ((0 : Int), ⟨fun _ => 0, 1⟩) := by
      unfold knuthLoop RNGr.next
      rw [if_pos hL1]
      simp only
      unfold knuthLoop
      rw [if_neg (show ¬ Real.exp (-(11 / 2 : ℝ)) < 1 * 0 by
        simpa using (Real.exp_pos (-(11 / 2 : ℝ))).le)]
      norm_num
    have hsp : samplePoisson (11 / 2 : ℝ) ⟨fun _ => 0, 0⟩ 2 =
        ((0 : ℝ), ⟨fun _ => 0, 1⟩) := by
      unfold samplePoisson
      rw [if_neg (by norm_num), if_pos (by norm_num)]
      simp only [hk]
      norm_num
    unfold MetricPoissonNoise.Emit
    simp only [hsp, ↓reduceIte]
    rw [max_eq_left (show (0 : ℝ) ≤ 11 / 2 - 1 / 5 by norm_num)]
    rw [if_pos (show (0 : ℝ) < 11 / 2 - 1 / 5 by norm_num)]
    rw [if_neg (show ¬(11 / 2 - 1 / 5 : ℝ) < 0 by norm_num)]
    norm_num
  · intro n h
    have h5 : (5 : ℝ) < (n : ℝ) := by rw [h]; norm_num
    have h6 : (n : ℝ) < 6 := by rw [h]; norm_num
    have h5' : (5 : ℤ) < n := by exact_mod_cast h5
    have h6' : n < (6 : ℤ) := by exact_mod_cast h6
    omega

/-! ## Timeline compiler (C9) -/

/-- The `lastAt` fold never decreases the accumulator. -/
theorem segMaxEnd_fold_ge : ∀ (tl : List Segment) (acc : Int),
    acc ≤ tl.foldl
      (fun acc tl =>
        if tl.SegType = "segment" && decide (acc < tl.EndTs) then tl.EndTs
        else acc) acc
  | [], _ => le_refl _
  | dp :: rest, acc => by
    simp only [List.foldl_cons]
    split
    · next h =>
      have := segMaxEnd_fold_ge rest dp.EndTs
      have hlt : acc < dp.EndTs := by
        simpa using (Bool.and_elim_right h)
      omega
    · exact segMaxEnd_fold_ge rest acc

/-- Every `"segment"` entry's `end_ts` is bounded by the fold result. -/
theorem segMaxEnd_fold_ub : ∀ (tl : List Segment) (acc : Int),
    ∀ sgm ∈ tl, sgm.SegType = "segment" →
      sgm.EndTs ≤ tl.foldl
        (fun acc tl =>
          if tl.SegType = "segment" && decide (acc < tl.EndTs) then tl.EndTs
          else acc) acc
  | [], _ => by simp
  | dp :: rest, acc => by
    intro sgm hm hseg
    simp only [List.foldl_cons]
    rcases List.mem_cons.mp hm with rfl | hm'
    · split
      · exact segMaxEnd_fold_ge rest sgm.EndTs
      · next h =>
        have : ¬ acc < sgm.EndTs := by
          simpa [hseg] using h
        have := segMaxEnd_fold_ge rest acc
        omega
    · split
      · exact segMaxEnd_fold_ub rest dp.EndTs sgm hm' hseg
      · exact segMaxEnd_fold_ub rest acc sgm hm' hseg

/-- The fold result is the accumulator or some `"segment"` entry's
`end_ts`. -/
theorem segMaxEnd_fold_mem : ∀ (tl : List Segment) (acc : Int),
    tl.foldl
        (fun acc tl =>
          if tl.SegType = "segment" && decide (acc < tl.EndTs) then tl.EndTs
          else acc) acc = acc ∨
      ∃ sgm ∈ tl, sgm.SegType = "segment" ∧
        tl.foldl
          (fun acc tl =>
            if tl.SegType = "segment" && decide (acc < tl.EndTs) then tl.EndTs
            else acc) acc = sgm.EndTs
  | [], _ => Or.inl rfl
  | dp :: rest, acc => by
    simp only [List.foldl_cons]
    split
    · next h =>
      rcases segMaxEnd_fold_mem rest dp.EndTs with heq | ⟨sgm, hm, hseg, heq⟩
      · exact Or.inr ⟨dp, List.mem_cons_self dp rest,
          by simpa using (Bool.and_elim_left h), heq⟩
      · exact Or.inr ⟨sgm, List.mem_cons_of_mem dp hm, hseg, heq⟩
    · rcases segMaxEnd_fold_mem rest acc with heq | ⟨sgm, hm, hseg, heq⟩
      · exact Or.inl heq
      · exact Or.inr ⟨sgm, List.mem_cons_of_mem dp hm, hseg, heq⟩

/-- The timeline loop emits only `disableMetric` / `enableMetric` /
`metricGenerator` actions — never a `"metric"` action. -/
theorem addMetricTimelineGo_no_metric (id : String) (n : Nat) :
    ∀ (tl : List Segment) (sa : Int) (sv : ℚ) (dis : Bool) (rc : Nat)
      (acts : List ScriptAction),
      addMetricTimelineGo id n tl sa sv dis rc = .ok acts →
      ∀ a ∈ acts, a.ActionType ≠ "metric"
  | [], _, _, _, _, acts => by
    intro h a ha
    rw [addMetricTimelineGo] at h
    cases h
    exact absurd ha (by simp)
  | dp :: rest, sa, sv, dis, rc, acts => by
    intro h a ha
    rw [addMetricTimelineGo] at h
    by_cases h1 : dp.SegType = "disable"
    · rw [if_pos h1] at h
      cases hrec : addMetricTimelineGo id n rest (segStartAt dp sa)
          (segStartValue dp sv) true rc with
      | error e =>
        rw [hrec] at h
        exact absurd h (by simp)
      | ok acts' =>
        simp only [hrec] at h
        cases h
        rcases List.mem_cons.mp ha with rfl | ha'
        · simp
        · exact addMetricTimelineGo_no_metric id n rest _ _ _ _ _ hrec a ha'
    · rw [if_neg h1] at h
      by_cases h2 : dp.SegType = "segment"
      · rw [if_neg (show ¬¬(dp.SegType = "segment") from not_not_intro h2)] at h
        cases hrec : addMetricTimelineGo id n rest dp.EndTs dp.Target false
            (rc + 1) with
        | error e =>
          rw [hrec] at h
          exact absurd h (by simp)
        | ok acts' =>
          simp only [hrec] at h
          cases dis with
          | true =>
            simp only [↓reduceIte] at h
            cases h
            rcases List.mem_cons.mp ha with rfl | ha'
            · simp
            · rcases List.mem_cons.mp ha' with rfl | ha''
              · simp [segRampAction]
              · exact addMetricTimelineGo_no_metric id n rest _ _ _ _ _
                  hrec a ha''
          | false =>
            simp only [Bool.false_eq_true, if_false] at h
            cases h
            rcases List.mem_cons.mp ha with rfl | ha'
            · simp [segRampAction]
            · exact addMetricTimelineGo_no_metric id n rest _ _ _ _ _
                hrec a ha'
      · rw [if_pos h2] at h
        cases h

/-- C9.  For every metric variant: an empty timeline is rejected with an
error naming the metric; a timeline with no positive-`end_ts` `"segment"`
entry is rejected with an error naming the compiled variant id; otherwise
the compiled actions contain exactly one `"metric"` action, whose `to`
field and producer-spec `To` both equal `segMaxEnd` — the maximum `end_ts`
over the `"segment"` entries of the timeline. -/
theorem C9_timeline_compiler_to (metric : Metric) (variant : Variant) :
    (variant.Timeline = [] →
      compileVariant metric variant =
        .error ("no timeline for metric " ++ metric.Name)) ∧
    (variant.Timeline ≠ [] → segMaxEnd variant.Timeline = 0 →
      compileVariant metric variant =
        .error ("lastAt is 0 for metric " ++ makeMetricID metric variant)) ∧
    (∀ acts, compileVariant metric variant = .ok acts →
      ∃ mAct gs,
        acts.filter (fun a => a.ActionType = "metric") = [mAct] ∧
        mAct.Spec = .metric gs ∧
        mAct.To = segMaxEnd variant.Timeline ∧
        gs.To = some (segMaxEnd variant.Timeline) ∧
        (∀ sgm ∈ variant.Timeline, sgm.SegType = "segment" →
          sgm.EndTs ≤ segMaxEnd variant.Timeline) ∧
        (∃ sgm ∈ variant.Timeline, sgm.SegType = "segment" ∧
          sgm.EndTs = segMaxEnd variant.Timeline)) := by
  refine ⟨?_, ?_, ?_⟩
  · intro hempty
    rw [compileVariant, if_pos hempty]
  · intro hne hzero
    rw [compileVariant, if_neg hne]
    simp only
    rw [if_pos hzero]
  · intro acts hok
    rw [compileVariant] at hok
    split at hok
    · cases hok
    · next hne =>
      simp only at hok
      split at hok
      · cases hok
      · next hzero =>
        cases htl : addMetricTimelineToScript (makeMetricID metric variant)
            variant.Timeline with
        | error e => rw [htl] at hok; cases hok
        | ok tlActs =>
          rw [htl] at hok
          cases hok
          have hnometric : ∀ a ∈ tlActs, ¬(a.ActionType = "metric") := by
            rw [addMetricTimelineToScript.eq_def] at htl
            cases hv : variant.Timeline with
            | nil => exact absurd hv hne
            | cons first rest =>
              rw [hv] at htl
              simp only at htl
              intro a ha
              exact addMetricTimelineGo_no_metric _ _ _ _ _ _ _ _ htl a ha
          have htail : List.filter (fun a => a.ActionType = "metric") tlActs
              = [] := by
            rw [List.filter_eq_nil_iff]
            intro a ha
            simpa using hnometric a ha
          refine ⟨addMetricToConfig (makeMetricID metric variant) metric
              (getMetricFrequency metric.Frequency)
              (generateGeneratorIDs (makeMetricID metric variant)
                variant.Timeline)
              (((variant.Timeline.head?).map (·.StartTs)).getD 0)
              (segMaxEnd variant.Timeline), _, ?_, rfl, rfl, ?_, ?_, ?_⟩
          · simp [List.filter_cons, addMetricToConfig,
              addMetricNoiseGenerator, htail]
          · simp only [addMetricToConfig]
            rw [if_neg hzero]
          · exact fun sgm hm hseg =>
              segMaxEnd_fold_ub variant.Timeline 0 sgm hm hseg
          · rcases segMaxEnd_fold_mem variant.Timeline 0 with heq | hex
            · exact absurd heq hzero
            · obtain ⟨sgm, hm, hseg, heq⟩ := hex
              exact ⟨sgm, hm, hseg, heq.symm⟩

/-- C9 witness: a metric whose single variant has an empty timeline is
rejected with the error naming it. -/
theorem C9_witness :
    compileVariant ⟨"cpu", "gauge", 0, [], [⟨[], []⟩]⟩ ⟨[], []⟩ =
      .error ("no timeline for metric " ++ "cpu") :=
  (C9_timeline_compiler_to ⟨"cpu", "gauge", 0, [], [⟨[], []⟩]⟩ ⟨[], []⟩).1 rfl

/-! ## One action per tick (C3) -/

/-- What the dispatch prefix of `tick` does to the cursor: nothing when no
action is due, else it advances by exactly one and dispatches exactly the
action at the cursor. -/
theorem dispatchOne_spec (s : Script) (rs : RunState) (s1 : Script)
    (rs1 : RunState) (disp : Option ScriptAction)
    (h : dispatchOne s rs = .ok (s1, rs1, disp)) :
    rs1.Tick = rs.Tick ∧
    ((rs1.CurrentAction = rs.CurrentAction ∧ disp = none) ∨
      (rs1.CurrentAction = rs.CurrentAction + 1 ∧
        ∃ a, s.actions[rs.CurrentAction]? = some a ∧ a.At ≤ rs.Tick ∧
          disp = some a)) := by
  unfold dispatchOne at h
  cases hga : s.actions[rs.CurrentAction]? with
  | none =>
    rw [hga] at h
    cases h
    exact ⟨rfl, Or.inl ⟨rfl, rfl⟩⟩
  | some action =>
    rw [hga] at h
    simp only at h
    by_cases hat : action.At ≤ rs.Tick
    · rw [if_pos hat] at h
      cases hda : dispatchAction s rs.Tick action with
      | error e =>
        rw [hda] at h
        exact absurd h (by simp)
      | ok s2 =>
        rw [hda] at h
        cases h
        exact ⟨rfl, Or.inr ⟨rfl, action, rfl, hat, rfl⟩⟩
    · rw [if_neg hat] at h
      cases h
      exact ⟨rfl, Or.inl ⟨rfl, rfl⟩⟩

/-- When the cursor's action is due, the dispatch prefix takes it. -/
theorem dispatchOne_due (s : Script) (rs : RunState) (s1 : Script)
    (rs1 : RunState) (disp : Option ScriptAction) (a : ScriptAction)
    (h : dispatchOne s rs = .ok (s1, rs1, disp))
    (hga : s.actions[rs.CurrentAction]? = some a) (hat : a.At ≤ rs.Tick) :
    rs1.CurrentAction = rs.CurrentAction + 1 ∧ disp = some a := by
  unfold dispatchOne at h
  rw [hga] at h
  simp only at h
  rw [if_pos hat] at h
  cases hda : dispatchAction s rs.Tick a with
  | error e =>
    rw [hda] at h
    exact absurd h (by simp)
  | ok s2 =>
    rw [hda] at h
    cases h
    exact ⟨rfl, rfl⟩

/-- C3.  Each invocation of the tick step advances the action cursor by at
most one and dispatches at most one action; in particular when the actions
at the cursor and right after it are both due (`at ≤ tick`), only the
first is dispatched this tick and the cursor stops just past it. -/
theorem C3_one_action_per_tick (morder torder : List String) (fuel : Nat)
    (s : Script) (rs : RunState) (s' : Script) (rs' : RunState)
    (d : Option ScriptAction) (dps : List Datapoint) (log : List GenLogEntry)
    (h : tickStep morder torder fuel s rs = .ok (s', rs', d, dps, log)) :
    (rs'.CurrentAction = rs.CurrentAction ∨
      rs'.CurrentAction = rs.CurrentAction + 1) ∧
    d.toList.length ≤ 1 ∧
    (∀ a b, s.actions[rs.CurrentAction]? = some a → a.At ≤ rs.Tick →
      s.actions[rs.CurrentAction + 1]? = some b → b.At ≤ rs.Tick →
      rs'.CurrentAction = rs.CurrentAction + 1 ∧ d = some a) := by
  unfold tickStep at h
  cases hdisp : dispatchOne s rs with
  | error e =>
    rw [hdisp] at h
    exact absurd h (by simp)
  | ok trip =>
    obtain ⟨s1, rs1, disp⟩ := trip
    rw [hdisp] at h
    simp only at h
    cases hem : emitMetricsGo rs1.Tick rs1.Wallclock fuel
        (applyOrder morder (akeys s1.metricProducers)) s1 rs1.RND with
    | error e =>
      rw [hem] at h
      exact absurd h (by simp)
    | ok quad =>
      obtain ⟨s2, r2, dps2, log2⟩ := quad
      rw [hem] at h
      simp only at h
      cases h
      have hspec := dispatchOne_spec s rs s1 rs1 d hdisp
      refine ⟨?_, ?_, ?_⟩
      · rcases hspec.2 with ⟨hc, _⟩ | ⟨hc, _⟩
        · exact Or.inl hc
        · exact Or.inr hc
      · cases d <;> simp
      · intro a b hga hat _ _
        exact dispatchOne_due s rs s1 rs1 d a hdisp hga hat

/-- C3 witness: with `g1` and `g2` both due at tick 0, one tick advances
the cursor to exactly 1 and dispatches only `g1`. -/
theorem C3_witness :
    (⟨0, 0, 0, ⟨fun _ => 0, 0⟩, 1⟩ : RunState).CurrentAction =
      c3RS.CurrentAction + 1 ∧
    (some c3Act1 : Option ScriptAction) = some c3Act1 :=
  (C3_one_action_per_tick [] [] 0 c3Script c3RS
    ⟨[c3Act1, c3Act2], [("g1", c3Gen), ("g2", c3Gen)], [], [], 0⟩
    ⟨0, 0, 0, ⟨fun _ => 0, 0⟩, 1⟩ (some c3Act1) [] [] rfl).2.2
    c3Act1 c3Act2 rfl (by decide) rfl (by decide)

/-! ## Determinism (C6) -/

/-- The dispatch prefix depends on the run state only through the tick,
the cursor and the RNG — not the wall-clock. -/
theorem dispatchOne_wall (s : Script) (rs1 rs2 : RunState)
    (hsame : sameRunState rs1 rs2) :
    (∃ e, dispatchOne s rs1 = .error e ∧ dispatchOne s rs2 = .error e) ∨
    (∃ s' rs1' rs2' disp, dispatchOne s rs1 = .ok (s', rs1', disp) ∧
      dispatchOne s rs2 = .ok (s', rs2', disp) ∧ sameRunState rs1' rs2') := by
  obtain ⟨hT, hR, hC, hD⟩ := hsame
  unfold dispatchOne
  rw [← hC, ← hT]
  cases s.actions[rs1.CurrentAction]? with
  | none => exact Or.inr ⟨s, rs1, rs2, none, rfl, rfl, hT, hR, hC, hD⟩
  | some action =>
    simp only
    by_cases hat : action.At ≤ rs1.Tick
    · rw [if_pos hat, if_pos hat]
      cases dispatchAction s rs1.Tick action with
      | error e => exact Or.inl ⟨e, rfl, rfl⟩
      | ok s2 =>
        exact Or.inr ⟨s2, _, _, some action, rfl, rfl,
          by simp [sameRunState, hT, hR, hC, hD]⟩
    · rw [if_neg hat, if_neg hat]
      exact Or.inr ⟨s, rs1, rs2, none, rfl, rfl, hT, hR, hC, hD⟩

/-- `emitMetricsGo` depends on the wall-clock only through the recorded
datapoint timestamps. -/
theorem emitMetricsGo_wall (tick : Int) (fuel : Nat) :
    ∀ (names : List String) (s : Script) (r : RNG) (ts1 ts2 : Int),
    (∃ e, emitMetricsGo tick ts1 fuel names s r = .error e ∧
      emitMetricsGo tick ts2 fuel names s r = .error e) ∨
    (∃ s' r' dps1 dps2 log,
      emitMetricsGo tick ts1 fuel names s r = .ok (s', r', dps1, log) ∧
      emitMetricsGo tick ts2 fuel names s r = .ok (s', r', dps2, log) ∧
      dps1.map dpProj = dps2.map dpProj)
  | [], s, r, ts1, ts2 => Or.inr ⟨s, r, [], [], [], rfl, rfl, rfl⟩
  | n :: ns, s, r, ts1, ts2 => by
    unfold emitMetricsGo
    cases alookup s.metricProducers n with
    | none => exact Or.inl ⟨_, rfl, rfl⟩
    | some p =>
      simp only
      by_cases hse : p.ShouldEmit tick = true
      · rw [if_pos hse, if_pos hse]
        cases calculateValue tick fuel p.Generators s.metricGenerators r 0 with
        | error e => exact Or.inl ⟨e, rfl, rfl⟩
        | ok quad =>
          obtain ⟨v, gens', r', log⟩ := quad
          simp only
          rcases emitMetricsGo_wall tick fuel ns
              ({ s with
                  metricGenerators := gens'
                  metricProducers :=
                    aset s.metricProducers n { p with lastEmitted := tick } })
              r' ts1 ts2 with
            ⟨e, h1, h2⟩ | ⟨s', r'', dps1, dps2, log2, h1, h2, hproj⟩
          · rw [h1, h2]
            exact Or.inl ⟨e, rfl, rfl⟩
          · rw [h1, h2]
            refine Or.inr ⟨s', r'', _ :: dps1, _ :: dps2, log ++ log2,
              rfl, rfl, ?_⟩
            simp only [List.map_cons, hproj, dpProj]
      · rw [if_neg hse, if_neg hse]
        exact emitMetricsGo_wall tick fuel ns s r ts1 ts2

/-- `runSteps` produces wall-clock-independent generator logs and
datapoint values. -/
theorem runSteps_wall (morders torders : Nat → List String) (w1 w2 : Int)
    (fuel : Nat) :
    ∀ (count n : Nat) (s : Script) (rs1 rs2 : RunState),
    sameRunState rs1 rs2 →
    (∃ e, runSteps morders torders w1 fuel n count s rs1 = .error e ∧
      runSteps morders torders w2 fuel n count s rs2 = .error e) ∨
    (∃ s' rs1' rs2' dps1 dps2 log,
      runSteps morders torders w1 fuel n count s rs1 = .ok (s', rs1', dps1, log) ∧
      runSteps morders torders w2 fuel n count s rs2 = .ok (s', rs2', dps2, log) ∧
      dps1.map dpProj = dps2.map dpProj)
  | 0, n, s, rs1, rs2, _ =>
    Or.inr ⟨s, rs1, rs2, [], [], [], rfl, rfl, rfl⟩
  | count + 1, n, s, rs1, rs2, hsame => by
    obtain ⟨hT, hR, hC, hD⟩ := hsame
    have htick :
        (∃ e, tickStep (morders n) (torders n) fuel s
            ⟨(n : Int) * second, w1 + (n : Int) * second, rs1.RunDuration,
              rs1.RND, rs1.CurrentAction⟩ = .error e ∧
          tickStep (morders n) (torders n) fuel s
            ⟨(n : Int) * second, w2 + (n : Int) * second, rs2.RunDuration,
              rs2.RND, rs2.CurrentAction⟩ = .error e) ∨
        (∃ s1 rsA1 rsB1 d dps1 dps2 log,
          tickStep (morders n) (torders n) fuel s
            ⟨(n : Int) * second, w1 + (n : Int) * second, rs1.RunDuration,
              rs1.RND, rs1.CurrentAction⟩ = .ok (s1, rsA1, d, dps1, log) ∧
          tickStep (morders n) (torders n) fuel s
            ⟨(n : Int) * second, w2 + (n : Int) * second, rs2.RunDuration,
              rs2.RND, rs2.CurrentAction⟩ = .ok (s1, rsB1, d, dps2, log) ∧
          dps1.map dpProj = dps2.map dpProj ∧ sameRunState rsA1 rsB1) := by
      unfold tickStep
      rcases dispatchOne_wall s
          ⟨(n : Int) * second, w1 + (n : Int) * second, rs1.RunDuration,
            rs1.RND, rs1.CurrentAction⟩
          ⟨(n : Int) * second, w2 + (n : Int) * second, rs2.RunDuration,
            rs2.RND, rs2.CurrentAction⟩ ⟨rfl, hR, hC, hD⟩ with
        ⟨e, h1, h2⟩ | ⟨s1, rsA1, rsB1, disp, h1, h2, hsame1⟩
      · rw [h1, h2]
        exact Or.inl ⟨e, rfl, rfl⟩
      · rw [h1, h2]
        simp only
        obtain ⟨hT1, hR1, hC1, hD1⟩ := hsame1
        rw [← hT1, ← hR1]
        rcases emitMetricsGo_wall rsA1.Tick fuel
            (applyOrder (morders n) (akeys s1.metricProducers)) s1 rsA1.RND
            rsA1.Wallclock rsB1.Wallclock with
          ⟨e, g1, g2⟩ | ⟨s2, r2, dps1, dps2, log, g1, g2, hproj⟩
        · rw [g1, g2]
          exact Or.inl ⟨e, rfl, rfl⟩
        · rw [g1, g2]
          simp only
          exact Or.inr ⟨s2, _, _, disp, dps1, dps2, log, rfl, rfl, hproj,
            by simp [sameRunState, hC1, hD1]⟩
    unfold runSteps
    simp only
    rcases htick with ⟨e, h1, h2⟩ |
      ⟨s1, rsA1, rsB1, d, dps1, dps2, log, h1, h2, hproj, hsame1⟩
    · rw [h1, h2]
      exact Or.inl ⟨e, rfl, rfl⟩
    · rw [h1, h2]
      simp only
      rcases runSteps_wall morders torders w1 w2 fuel count (n + 1) s1
          rsA1 rsB1 hsame1 with
        ⟨e, g1, g2⟩ | ⟨s2, rsf1, rsf2, dq1, dq2, log2, g1, g2, hproj2⟩
      · rw [g1, g2]
        exact Or.inl ⟨e, rfl, rfl⟩
      · rw [g1, g2]
        refine Or.inr ⟨s2, rsf1, rsf2, dps1 ++ dq1, dps2 ++ dq2, log ++ log2,
          rfl, rfl, ?_⟩
        simp [hproj, hproj2]

/-- C6 (amended).  Two runs of the same prepared script with the same
draw stream (the same non-zero seed) and the same per-tick map-iteration
orders produce identical generator output sequences and identical
datapoint values, even when their wall-clock starts differ.  (Identity of
the iteration orders is necessary: Go randomizes map iteration per run —
see the counterexample.) -/
theorem C6_determinism (s : Script) (stream : Nat → ℚ)
    (morders torders : Nat → List String) (fuel : Nat) (w1 w2 : Int) :
    runGenLog (s.runFrom stream w1 morders torders fuel) =
      runGenLog (s.runFrom stream w2 morders torders fuel) ∧
    runDatapointValues (s.runFrom stream w1 morders torders fuel) =
      runDatapointValues (s.runFrom stream w2 morders torders fuel) := by
  unfold Script.runFrom
  rcases runSteps_wall morders torders w1 w2 fuel
      ((Int.tdiv s.duration second + 1)).toNat 0 s
      (initRunState s.duration stream w1) (initRunState s.duration stream w2)
      ⟨rfl, rfl, rfl, rfl⟩ with
    ⟨e, h1, h2⟩ | ⟨s', rs1', rs2', dps1, dps2, log, h1, h2, hproj⟩
  · rw [h1, h2]
    exact ⟨rfl, rfl⟩
  · rw [h1, h2]
    exact ⟨rfl, by simp [runDatapointValues, Except.map, hproj]⟩

/-- C6 counterexample: the same script, stream and wall-clock, but the
two map-iteration orders Go may choose at tick 3 (`[p1, p2]` vs
`[p2, p1]`), give generator `g1` the value `1` in one run and `2` in the
other at tick 3 — identical scripts and seed do *not* suffice for
identical generator output sequences. -/
theorem C6_cex :
    genValueAt (cxScript.runFrom (fun n => (n : ℚ)) 0
        (fun _ => ["p1", "p2"]) (fun _ => []) 4) "g1" (3 * second) =
      some 1 ∧
    genValueAt (cxScript.runFrom (fun n => (n : ℚ)) 0
        (fun _ => ["p2", "p1"]) (fun _ => []) 4) "g1" (3 * second) =
      some 2 ∧
    (1 : ℚ) ≠ 2 := by
  refine ⟨?_, ?_, by norm_num⟩
  · with_unfolding_all rfl
  · with_unfolding_all rfl

/-! ## `Prepare` covers the dispatcher (C10) -/

theorem alookup_cons {α : Type} (a : String) (b : α)
    (l : List (String × α)) (k : String) :
    alookup ((a, b) :: l) k = if a = k then some b else alookup l k := by
  unfold alookup
  rw [List.find?_cons]
  by_cases h : a = k
  · simp [h]
  · simp [h]

theorem alookup_aset_self {α : Type} :
    ∀ (l : List (String × α)) (k : String) (v : α),
    alookup (aset l k v) k = some v
  | [], k, v => by simp [aset, alookup_cons, alookup]
  | (a, b) :: l, k, v => by
    rw [aset]
    by_cases h : a = k
    · rw [if_pos h, alookup_cons, if_pos rfl]
    · rw [if_neg h, alookup_cons, if_neg h]
      exact alookup_aset_self l k v

theorem alookup_aset_ne {α : Type} :
    ∀ (l : List (String × α)) (k k' : String) (v : α), k' ≠ k →
    alookup (aset l k v) k' = alookup l k'
  | [], k, k', v, h => by
    rw [show aset ([] : List (String × α)) k v = [(k, v)] from rfl,
      alookup_cons, if_neg (fun hh => h hh.symm)]
  | (a, b) :: l, k, k', v, h => by
    rw [aset]
    by_cases ha : a = k
    · rw [if_pos ha, alookup_cons, alookup_cons,
        if_neg (fun hh : k = k' => h hh.symm), if_neg (ha ▸ fun hh : k = k' => h hh.symm)]
    · rw [if_neg ha, alookup_cons, alookup_cons]
      by_cases hk : a = k'
      · rw [if_pos hk, if_pos hk]
      · rw [if_neg hk, if_neg hk]
        exact alookup_aset_ne l k k' v h

theorem alookup_aset_isSome {α : Type} (l : List (String × α))
    (k k' : String) (v : α) (h : (alookup l k').isSome) :
    (alookup (aset l k v) k').isSome := by
  by_cases hk : k' = k
  · rw [hk, alookup_aset_self]
    rfl
  · rw [alookup_aset_ne l k k' v hk]
    exact h

/-- The generator-creation pass registers every `metricGenerator` action's
ID and never unregisters anything. -/
theorem prepareGenerators_spec :
    ∀ (acts : List ScriptAction) (gens0 gens : List (String × MGen)),
    prepareGenerators acts gens0 = .ok gens →
    (∀ k, (alookup gens0 k).isSome → (alookup gens k).isSome) ∧
    (∀ a ∈ acts, a.ActionType = "metricGenerator" →
      (alookup gens a.ID).isSome)
  | [], gens0, gens => by
    intro h
    cases h
    exact ⟨fun k hk => hk, by simp⟩
  | a :: rest, gens0, gens => by
    intro h
    rw [prepareGenerators] at h
    by_cases hty : a.ActionType = "metricGenerator"
    · rw [if_pos hty] at h
      cases hspec : a.Spec with
      | gen g =>
        rw [hspec] at h
        simp only at h
        cases hcg : CreateMetricGenerator a.At g with
        | error msg =>
          rw [hcg] at h
          exact absurd h (by simp)
        | ok gen =>
          rw [hcg] at h
          simp only at h
          have IH := prepareGenerators_spec rest (aset gens0 a.ID gen) gens h
          refine ⟨fun k hk => IH.1 k (alookup_aset_isSome _ _ _ _ hk), ?_⟩
          intro b hb hbty
          rcases List.mem_cons.mp hb with rfl | hb'
          · exact IH.1 b.ID (by rw [alookup_aset_self]; rfl)
          · exact IH.2 b hb' hbty
      | metric m => rw [hspec] at h; exact absurd h (by simp)
      | traceRate r st => rw [hspec] at h; exact absurd h (by simp)
      | empty => rw [hspec] at h; exact absurd h (by simp)
    · rw [if_neg hty] at h
      have IH := prepareGenerators_spec rest gens0 gens h
      refine ⟨IH.1, ?_⟩
      intro b hb hbty
      rcases List.mem_cons.mp hb with rfl | hb'
      · exact absurd hbty hty
      · exact IH.2 b hb' hbty

/-- A successful `Prepare` leaves a covered script. -/
theorem Prepare_covered (s s₀ : Script) (cfgDur : Int)
    (h : s.Prepare cfgDur = .ok s₀) : covered s₀ := by
  unfold Script.Prepare at h
  split at h
  · exact absurd h (by simp)
  · simp only at h
    cases hd : calculateDuration cfgDur (sortActions s.actions) with
    | error e => rw [hd] at h; exact absurd h (by simp)
    | ok dur =>
      rw [hd] at h
      simp only at h
      cases hp : prepareGenerators (sortActions s.actions) s.metricGenerators with
      | error e => rw [hp] at h; exact absurd h (by simp)
      | ok gens =>
        rw [hp] at h
        simp only at h
        cases h
        intro a ha hty
        exact (prepareGenerators_spec _ _ _ hp).2 a ha hty

/-- The generator-creation pass only fails with a creation error. -/
theorem prepareGenerators_error :
    ∀ (acts : List ScriptAction) (gens0 : List (String × MGen)) (e : RunError),
    prepareGenerators acts gens0 = .error e → ∃ m, e = .createGenerator m
  | [], gens0, e => by
    intro h
    exact absurd h (by simp [prepareGenerators])
  | a :: rest, gens0, e => by
    intro h
    rw [prepareGenerators] at h
    by_cases hty : a.ActionType = "metricGenerator"
    · rw [if_pos hty] at h
      cases hspec : a.Spec with
      | gen g =>
        rw [hspec] at h
        simp only at h
        cases hcg : CreateMetricGenerator a.At g with
        | error msg =>
          rw [hcg] at h
          simp only at h
          cases h
          exact ⟨msg, rfl⟩
        | ok gen =>
          rw [hcg] at h
          simp only at h
          exact prepareGenerators_error rest _ e h
      | metric m =>
        rw [hspec] at h
        simp only at h
        cases h
        exact ⟨_, rfl⟩
      | traceRate r st =>
        rw [hspec] at h
        simp only at h
        cases h
        exact ⟨_, rfl⟩
      | empty =>
        rw [hspec] at h
        simp only at h
        cases h
        exact ⟨_, rfl⟩
    · rw [if_neg hty] at h
      exact prepareGenerators_error rest gens0 e h

/-- `Prepare` itself never fails with the dispatcher's generator-not-found
error. -/
theorem Prepare_error_shape (s : Script) (cfgDur : Int) (e : RunError)
    (h : s.Prepare cfgDur = .error e) :
    e = .noActions ∨ e = .durationTooSmall ∨ ∃ m, e = .createGenerator m := by
  unfold Script.Prepare at h
  split at h
  · cases h
    exact Or.inl rfl
  · simp only at h
    cases hd : calculateDuration cfgDur (sortActions s.actions) with
    | error e' =>
      rw [hd] at h
      simp only at h
      cases h
      unfold calculateDuration at hd
      split at hd
      · cases hd
        exact Or.inl rfl
      · simp only at hd
        split at hd
        · exact absurd hd (by simp)
        · split at hd
          · cases hd
            exact Or.inr (Or.inl rfl)
          · exact absurd hd (by simp)
    | ok dur =>
      rw [hd] at h
      simp only at h
      cases hp : prepareGenerators (sortActions s.actions) s.metricGenerators with
      | error e' =>
        rw [hp] at h
        simp only at h
        cases h
        exact Or.inr (Or.inr (prepareGenerators_error _ _ _ hp))
      | ok gens =>
        rw [hp] at h
        exact absurd h (by simp)

/-- `calculateValue` only reassigns existing keys: lookups stay
defined. -/
theorem calculateValue_mono (tick : Int) (fuel : Nat) :
    ∀ (names : List String) (gens : List (String × MGen)) (r : RNG) (v : ℚ)
      (res : ℚ × List (String × MGen) × RNG × List GenLogEntry),
    calculateValue tick fuel names gens r v = .ok res →
    ∀ k, (alookup gens k).isSome → (alookup res.2.1 k).isSome
  | [], gens, r, v, res => by
    intro h k hk
    cases h
    exact hk
  | n :: ns, gens, r, v, res => by
    intro h k hk
    rw [calculateValue] at h
    cases hl : alookup gens n with
    | none =>
      rw [hl] at h
      exact absurd h (by simp)
    | some g =>
      rw [hl] at h
      simp only at h
      rcases he : g.Emit tick r fuel v with ⟨v', g', r'⟩
      rw [he] at h
      simp only at h
      cases hrec : calculateValue tick fuel ns (aset gens n g') r' v' with
      | error e =>
        rw [hrec] at h
        exact absurd h (by simp)
      | ok q =>
        obtain ⟨vf, gensf, rf, log⟩ := q
        rw [hrec] at h
        simp only at h
        cases h
        exact calculateValue_mono tick fuel ns (aset gens n g') r' v'
          (vf, gensf, rf, log) hrec k (alookup_aset_isSome _ _ _ _ hk)

/-- `calculateValue` only fails with an unknown-generator error. -/
theorem calculateValue_error (tick : Int) (fuel : Nat) :
    ∀ (names : List String) (gens : List (String × MGen)) (r : RNG) (v : ℚ)
      (e : RunError),
    calculateValue tick fuel names gens r v = .error e →
    ∃ g, e = .unknownGenerator g
  | [], gens, r, v, e => by
    intro h
    exact absurd h (by simp [calculateValue])
  | n :: ns, gens, r, v, e => by
    intro h
    rw [calculateValue] at h
    cases hl : alookup gens n with
    | none =>
      rw [hl] at h
      simp only at h
      cases h
      exact ⟨n, rfl⟩
    | some g =>
      rw [hl] at h
      simp only at h
      rcases he : g.Emit tick r fuel v with ⟨v', g', r'⟩
      rw [he] at h
      simp only at h
      cases hrec : calculateValue tick fuel ns (aset gens n g') r' v' with
      | error e' =>
        rw [hrec] at h
        simp only at h
        cases h
        exact calculateValue_error tick fuel ns _ r' v' e hrec
      | ok q =>
        obtain ⟨vf, gensf, rf, log⟩ := q
        rw [hrec] at h
        exact absurd h (by simp)

/-- `emitMetricsGo`'s failures and its effect on the generator registry:
errors are producer-not-found or unknown-generator, the action list is
untouched, and generator lookups stay defined. -/
theorem emitMetricsGo_spec (tick : Int) (ts : Int) (fuel : Nat) :
    ∀ (names : List String) (s : Script) (r : RNG),
    (∀ e, emitMetricsGo tick ts fuel names s r = .error e →
      (∃ nn, e = .producerNotFound nn) ∨ ∃ g, e = .unknownGenerator g) ∧
    (∀ s' r' dps log,
      emitMetricsGo tick ts fuel names s r = .ok (s', r', dps, log) →
      s'.actions = s.actions ∧
      ∀ k, (alookup s.metricGenerators k).isSome →
        (alookup s'.metricGenerators k).isSome)
  | [], s, r => by
    constructor
    · intro e h
      exact absurd h (by simp [emitMetricsGo])
    · intro s' r' dps log h
      cases h
      exact ⟨rfl, fun k hk => hk⟩
  | n :: ns, s, r => by
    constructor
    · intro e h
      rw [emitMetricsGo] at h
      cases hl : alookup s.metricProducers n with
      | none =>
        rw [hl] at h
        simp only at h
        cases h
        exact Or.inl ⟨n, rfl⟩
      | some p =>
        rw [hl] at h
        simp only at h
        by_cases hse : p.ShouldEmit tick = true
        · rw [if_pos hse] at h
          cases hcv : calculateValue tick fuel p.Generators
              s.metricGenerators r 0 with
          | error e' =>
            rw [hcv] at h
            simp only at h
            cases h
            exact Or.inr (calculateValue_error tick fuel _ _ _ _ _ hcv)
          | ok q =>
            obtain ⟨v, gens', r', log⟩ := q
            rw [hcv] at h
            simp only at h
            cases hrec : emitMetricsGo tick ts fuel ns
                ({ s with
                    metricGenerators := gens'
                    metricProducers :=
                      aset s.metricProducers n { p with lastEmitted := tick } })
                r' with
            | error e' =>
              rw [hrec] at h
              simp only at h
              cases h
              exact (emitMetricsGo_spec tick ts fuel ns _ r').1 e hrec
            | ok q2 =>
              obtain ⟨s2, r2, dps2, log2⟩ := q2
              rw [hrec] at h
              exact absurd h (by simp)
        · rw [if_neg hse] at h
          exact (emitMetricsGo_spec tick ts fuel ns s r).1 e h
    · intro s' r' dps log h
      rw [emitMetricsGo] at h
      cases hl : alookup s.metricProducers n with
      | none =>
        rw [hl] at h
        exact absurd h (by simp)
      | some p =>
        rw [hl] at h
        simp only at h
        by_cases hse : p.ShouldEmit tick = true
        · rw [if_pos hse] at h
          cases hcv : calculateValue tick fuel p.Generators
              s.metricGenerators r 0 with
          | error e' =>
            rw [hcv] at h
            exact absurd h (by simp)
          | ok q =>
            obtain ⟨v, gens', r', log⟩ := q
            rw [hcv] at h
            simp only at h
            cases hrec : emitMetricsGo tick ts fuel ns
                ({ s with
                    metricGenerators := gens'
                    metricProducers :=
                      aset s.metricProducers n { p with lastEmitted := tick } })
                r' with
            | error e' =>
              rw [hrec] at h
              exact absurd h (by simp)
            | ok q2 =>
              obtain ⟨s2, r2, dps2, log2⟩ := q2
              rw [hrec] at h
              simp only at h
              have IH := (emitMetricsGo_spec tick ts fuel ns
                ({ s with
                    metricGenerators := gens'
                    metricProducers :=
                      aset s.metricProducers n { p with lastEmitted := tick } })
                r').2 s2 r2 dps2 log2 hrec
              cases h
              refine ⟨IH.1, fun k hk => IH.2 k ?_⟩
              exact calculateValue_mono tick fuel p.Generators
                s.metricGenerators r 0 (v, gens', r', log) hcv k hk
        · rw [if_neg hse] at h
          exact (emitMetricsGo_spec tick ts fuel ns s r).2 s' r' dps log h

/-- Successful action dispatch leaves the action list untouched and only
ever `aset`s the generator registry: generator lookups stay defined. -/
theorem dispatchAction_ok_spec (s : Script) (tick : Int) (a : ScriptAction)
    (s' : Script) (h : dispatchAction s tick a = .ok s') :
    s'.actions = s.actions ∧
    ∀ k, (alookup s.metricGenerators k).isSome →
      (alookup s'.metricGenerators k).isSome := by
  unfold dispatchAction at h
  repeat' first
    | split at h
    | simp only [] at h
  all_goals try exact Except.noConfusion h
  all_goals cases h
  all_goals refine ⟨rfl, fun k hk => ?_⟩
  all_goals first
    | exact alookup_aset_isSome _ _ _ _ hk
    | exact hk

/-- When the generator registry covers the dispatched action, dispatch
never returns the generator-not-found error. -/
theorem dispatchAction_no_genNotFound (s : Script) (tick : Int)
    (a : ScriptAction)
    (hcov : a.ActionType = "metricGenerator" →
      (alookup s.metricGenerators a.ID).isSome)
    (id : String) :
    dispatchAction s tick a ≠ .error (.genNotFound id) := by
  intro h
  unfold dispatchAction at h
  repeat' first
    | split at h
    | simp only [] at h
  all_goals try exact Except.noConfusion h
  all_goals try exact RunError.noConfusion (Except.error.inj h)
  all_goals simp_all

/-- Under a covering generator registry, the dispatch prefix of a tick
never reports generator-not-found, and its successor state is covered. -/
theorem dispatchOne_cov (s : Script) (rs : RunState) (hcov : covered s) :
    (∀ id, dispatchOne s rs ≠ .error (.genNotFound id)) ∧
    (∀ s1 rs1 d, dispatchOne s rs = .ok (s1, rs1, d) → covered s1) := by
  unfold dispatchOne
  cases hg : s.actions[rs.CurrentAction]? with
  | none =>
    refine ⟨fun id h => Except.noConfusion h, fun s1 rs1 d h => ?_⟩
    cases h
    exact hcov
  | some action =>
    have hmem : action ∈ s.actions := List.getElem?_mem hg
    simp only
    by_cases hdue : action.At ≤ rs.Tick
    · rw [if_pos hdue]
      cases hda : dispatchAction s rs.Tick action with
      | error e =>
        refine ⟨fun id h => ?_, fun s1 rs1 d h => Except.noConfusion h⟩
        simp only at h
        cases h
        exact dispatchAction_no_genNotFound s rs.Tick action
          (fun hty => hcov action hmem hty) _ hda
      | ok s2 =>
        refine ⟨fun id h => Except.noConfusion h, fun s1 rs1 d h => ?_⟩
        simp only at h
        cases h
        obtain ⟨hact, hlk⟩ := dispatchAction_ok_spec s rs.Tick action s2 hda
        intro b hb hbty
        rw [hact] at hb
        exact hlk b.ID (hcov b hb hbty)
    · rw [if_neg hdue]
      refine ⟨fun id h => Except.noConfusion h, fun s1 rs1 d h => ?_⟩
      cases h
      exact hcov

/-- Under a covering generator registry, a whole tick never reports
generator-not-found, preserves coverage, and leaves the action list
unchanged. -/
theorem tickStep_cov (morder torder : List String) (fuel : Nat) (s : Script)
    (rs : RunState) (hcov : covered s) :
    (∀ id, tickStep morder torder fuel s rs ≠ .error (.genNotFound id)) ∧
    (∀ s' rs' d dps log,
      tickStep morder torder fuel s rs = .ok (s', rs', d, dps, log) →
      covered s') := by
  unfold tickStep
  cases hd : dispatchOne s rs with
  | error e =>
    refine ⟨fun id h => ?_, fun s' rs' d dps log h => Except.noConfusion h⟩
    simp only at h
    cases h
    exact (dispatchOne_cov s rs hcov).1 _ hd
  | ok q =>
    obtain ⟨s1, rs1, disp⟩ := q
    have hcov1 : covered s1 := (dispatchOne_cov s rs hcov).2 s1 rs1 disp hd
    simp only
    cases he : emitMetricsGo rs1.Tick rs1.Wallclock fuel
        (applyOrder morder (akeys s1.metricProducers)) s1 rs1.RND with
    | error e =>
      refine ⟨fun id h => ?_, fun s' rs' d dps log h => Except.noConfusion h⟩
      simp only at h
      cases h
      rcases (emitMetricsGo_spec rs1.Tick rs1.Wallclock fuel
          (applyOrder morder (akeys s1.metricProducers)) s1 rs1.RND).1 _ he with
        ⟨nn, hnn⟩ | ⟨g, hg⟩
      · exact RunError.noConfusion hnn
      · exact RunError.noConfusion hg
    | ok q2 =>
      obtain ⟨s2, r2, dps2, log2⟩ := q2
      obtain ⟨hact2, hlk2⟩ := (emitMetricsGo_spec rs1.Tick rs1.Wallclock fuel
        (applyOrder morder (akeys s1.metricProducers)) s1 rs1.RND).2
        s2 r2 dps2 log2 he
      refine ⟨fun id h => Except.noConfusion h, fun s' rs' d dps log h => ?_⟩
      simp only at h
      cases h
      intro b hb hbty
      rw [hact2] at hb
      exact hlk2 b.ID (hcov1 b hb hbty)

/-- Under a covering generator registry, the run loop never reports
generator-not-found. -/
theorem runSteps_cov (morders torders : Nat → List String) (wallStart : Int)
    (fuel : Nat) :
    ∀ (count n : Nat) (s : Script) (rs : RunState), covered s →
    ∀ id, runSteps morders torders wallStart fuel n count s rs ≠
      .error (.genNotFound id)
  | 0, n, s, rs, _, id => by
    intro h
    exact Except.noConfusion h
  | count + 1, n, s, rs, hcov, id => by
    intro h
    rw [runSteps] at h
    cases ht : tickStep (morders n) (torders n) fuel s
        { rs with Tick := (n : Int) * second,
                  Wallclock := wallStart + (n : Int) * second } with
    | error e =>
      rw [ht] at h
      simp only at h
      cases h
      exact (tickStep_cov (morders n) (torders n) fuel s _ hcov).1 id ht
    | ok q =>
      obtain ⟨s', rs', d, dps, log⟩ := q
      rw [ht] at h
      simp only at h
      have hcov' : covered s' :=
        (tickStep_cov (morders n) (torders n) fuel s _ hcov).2 s' rs' d dps
          log ht
      cases hrec : runSteps morders torders wallStart fuel (n + 1) count s'
          rs' with
      | error e =>
        rw [hrec] at h
        simp only at h
        cases h
        exact runSteps_cov morders torders wallStart fuel count (n + 1) s'
          rs' hcov' id hrec
      | ok q2 =>
        obtain ⟨s'', rs'', dps2, log2⟩ := q2
        rw [hrec] at h
        exact Except.noConfusion h

/-- C10: for every script executed through `Simulate`, the tick
dispatcher's generator-not-found branch is unreachable: `Prepare` either
registers a generator under the ID of every `metricGenerator` action or
fails the run with a prepare-time error, and the run loop preserves that
coverage, so no tick ever reports `genNotFound`. -/
theorem C10_gen_not_found_unreachable (s : Script) (cfgDur : Int)
    (stream : Nat → ℚ) (wallStart : Int)
    (morders torders : Nat → List String) (fuel : Nat) (id : String) :
    s.Simulate cfgDur stream wallStart morders torders fuel ≠
      .error (.genNotFound id) := by
  intro h
  unfold Script.Simulate at h
  cases hp : s.Prepare cfgDur with
  | error e =>
    rw [hp] at h
    simp only at h
    cases h
    rcases Prepare_error_shape s cfgDur _ hp with h1 | h1 | ⟨m, h1⟩ <;>
      exact RunError.noConfusion h1
  | ok s₀ =>
    rw [hp] at h
    simp only at h
    exact runSteps_cov morders torders wallStart fuel
      (Int.tdiv s₀.duration second + 1).toNat 0 s₀
      (initRunState s₀.duration stream wallStart)
      (Prepare_covered s s₀ cfgDur hp) id h

set_option maxRecDepth 100000 in
/-- C5: in the run with a single ramp `0 → 100` over 10 minutes sampled by
a gauge with frequency 10 s, datapoints appear at `t = 10 s, 20 s, …,
600 s` — not at `t = 0` — with value `10·(t/60) = t/6` seconds, reaching
the cap 100 at `t = 600 s`. -/
theorem C5_ramp_gauge_run : runDatapointValues c5Run = .ok c5Expected := by
  with_unfolding_all rfl

set_option maxRecDepth 100000 in
/-- C5 counterexample: the claimed datapoint at `t = 0 s` does not exist —
filtering the run's datapoints for tick 0 leaves nothing (the producer
starts with `lastEmitted = 0`, so the frequency gate
`tick ≥ lastEmitted + frequency` first passes at `t = 10 s`). -/
theorem C5_cex :
    (runDatapointValues c5Run).map (List.filter (fun x => x.2.1 == 0)) =
      .ok [] := by
  with_unfolding_all rfl

end Flutter
